import Mathlib

/-!
# Apay: bill-splitting front end and the settlement ledger it drives

The repository contains one source file, `frontend/app.js`: the browser
front end of a bill-splitting contract.  The contract itself is only present
through its interface (`CONTRACT_ABI`, lines 2-13) and through the calls the
front end makes.

* Part I embeds the settlement ledger.  Its code is not in the repository
  sources, so it is modelled from the specification (sections 3, 4, 7 and 8).
* Part II embeds `CONTRACT_ABI` literally and reads the declarations off the
  strings.
* Part III embeds the front-end functions `createBill`, `loadBills`,
  `showBillDetails`, `payShare` and `withdrawFunds` of `app.js` as pure
  functions from the form state and the answers of the contract to the list
  of effects (contract calls, status messages) and the rendered view.
-/

namespace Apay

/-! ## Part I: the settlement ledger -/

/-- An identity (account address) as the front end sees it: a string. -/
abbrev Address := String

/-- Modelled from the spec: the error taxonomy of section 7; the ledger code
is not part of the sources. -/
inductive LedgerError
  | InvalidInput
  | NotFound
  | Inactive
  | NotParticipant
  | AlreadyPaid
  | WrongAmount
  | Unauthorized
  | NothingToWithdraw
  | Overflow
deriving DecidableEq, Repr

/-- Modelled from the spec: the Bill record of section 3.  The identifier of a
bill is its position in the registry.  `paidBy` is a set, kept as a list in
order of payment; the ledger never inserts an identity twice. -/
structure Bill where
  creator : Address
  description : String
  totalAmount : Nat
  amountPerPerson : Nat
  participants : List Address
  paidBy : List Address
  totalPaid : Nat
  isActive : Bool
deriving DecidableEq, Repr

/-- Modelled from the spec: the typed records of the event log (section 4.4).
The logical sequence number of a record is its position in the log. -/
inductive LedgerEvent
  | Created (id : Nat) (creator : Address) (description : String)
      (totalAmount : Nat) (participantCount : Nat)
  | Paid (id : Nat) (payer : Address) (amount : Nat)
  | Completed (id : Nat)
  | Withdrawn (id : Nat) (creator : Address) (amount : Nat)
deriving DecidableEq, Repr

/-- Modelled from the spec: the registry (bills indexed by identifier) together
with the append-only event log. -/
structure Ledger where
  bills : List Bill
  log : List LedgerEvent
deriving DecidableEq, Repr

deriving instance DecidableEq for Except

/-- The bound of the amounts, which are unsigned 256-bit integers (`uint256` in
`CONTRACT_ABI`). -/
def uintBound : Nat := 2 ^ 256

namespace Ledger

/-- Modelled from the spec: the ledger before any operation, with no bill and an
empty log (identifiers are assigned from 0, section 3). -/
def empty : Ledger := { bills := [], log := [] }

/-- Modelled from the spec: `createBill` of section 4.1.  `InvalidInput` if the
participant list is empty, contains duplicates, or the total is zero;
`Overflow` if the total or the share cannot be represented.  On success the new
bill gets the next identifier and a `Created` record is appended. -/
def createBill (s : Ledger) (creator : Address) (description : String)
    (participants : List Address) (totalAmount : Nat) :
    Except LedgerError (Ledger × Nat) :=
  if participants.isEmpty || !(decide participants.Nodup) || totalAmount == 0 then
    .error .InvalidInput
  else if decide (uintBound ≤ totalAmount)
      || decide (uintBound ≤ totalAmount / participants.length) then
    .error .Overflow
  else
    let id := s.bills.length
    let bill : Bill :=
      { creator := creator
        description := description
        totalAmount := totalAmount
        amountPerPerson := totalAmount / participants.length
        participants := participants
        paidBy := []
        totalPaid := 0
        isActive := true }
    .ok ({ bills := s.bills ++ [bill]
           log := s.log ++ [.Created id creator description totalAmount participants.length] },
         id)

/-- Modelled from the spec: `getBill` of section 4.1, `NotFound` when the
identifier is out of range. -/
def getBill (s : Ledger) (id : Nat) : Except LedgerError Bill :=
  match s.bills[id]? with
  | none => .error .NotFound
  | some b => .ok b

/-- Modelled from the spec: `billCount` of section 4.1. -/
def billCount (s : Ledger) : Nat := s.bills.length

/-- Modelled from the spec: `hasPaid` of section 4.2. -/
def hasPaid (s : Ledger) (id : Nat) (participant : Address) : Except LedgerError Bool :=
  match s.bills[id]? with
  | none => .error .NotFound
  | some b => .ok (decide (participant ∈ b.paidBy))

/-- Modelled from the spec: `allPaid` of section 4.2. -/
def allPaid (s : Ledger) (id : Nat) : Except LedgerError Bool :=
  match s.bills[id]? with
  | none => .error .NotFound
  | some b => .ok (b.paidBy.length == b.participants.length)

/-- Modelled from the spec: `payShare` of section 4.2.  Section 4.2 names the
failures without fixing which one wins when several apply; section 8 does:
a non-participant is answered `NotParticipant`, and a participant who has
already paid is always answered `AlreadyPaid`, whatever the amount and the state
of the bill.  So, once the bill is known to exist, the payer is looked at first
(`NotParticipant`, then `AlreadyPaid`), then the bill (`Inactive`), then the
amount (`WrongAmount`).  On success the payer joins `paidBy`, the amount is
added to `totalPaid`, a `Paid` record is appended, and a `Completed` record
follows when everybody has paid. -/
def payShare (s : Ledger) (id : Nat) (payer : Address) (amount : Nat) :
    Except LedgerError Ledger :=
  match s.bills[id]? with
  | none => .error .NotFound
  | some b =>
    if !(decide (payer ∈ b.participants)) then .error .NotParticipant
    else if decide (payer ∈ b.paidBy) then .error .AlreadyPaid
    else if !b.isActive then .error .Inactive
    else if amount != b.amountPerPerson then .error .WrongAmount
    else
      let b1 : Bill := { b with paidBy := b.paidBy ++ [payer], totalPaid := b.totalPaid + amount }
      let log1 := s.log ++ [.Paid id payer amount]
      let log2 := if b1.paidBy.length == b1.participants.length then log1 ++ [.Completed id] else log1
      .ok { bills := s.bills.set id b1, log := log2 }

/-- Modelled from the spec: `withdrawFunds` of section 4.3.  Section 4.3 names
the failures without fixing which one wins when several apply; section 8 does:
once a bill has been withdrawn, a second call fails with `Inactive`.  So, once
the bill is known to exist, `Inactive` is tested first, then `Unauthorized`,
then `NothingToWithdraw`.  On success the collected total is captured,
`totalPaid` becomes 0, `isActive` becomes false, a `Withdrawn` record is
appended and the captured amount is released to the creator (the second
component of the result). -/
def withdrawFunds (s : Ledger) (id : Nat) (caller : Address) :
    Except LedgerError (Ledger × Nat) :=
  match s.bills[id]? with
  | none => .error .NotFound
  | some b =>
    if !b.isActive then .error .Inactive
    else if caller != b.creator then .error .Unauthorized
    else if b.totalPaid == 0 then .error .NothingToWithdraw
    else
      let amount := b.totalPaid
      let b1 : Bill := { b with totalPaid := 0, isActive := false }
      .ok ({ bills := s.bills.set id b1
             log := s.log ++ [.Withdrawn id b.creator amount] },
           amount)

end Ledger

/-- Modelled from the spec: the three mutating operations a caller can issue
(section 2), with their arguments. -/
inductive Op
  | create (creator : Address) (description : String) (participants : List Address)
      (totalAmount : Nat)
  | pay (id : Nat) (payer : Address) (amount : Nat)
  | withdraw (id : Nat) (caller : Address)
deriving DecidableEq, Repr

namespace Ledger

/-- Modelled from the spec: operations are atomic and all-or-nothing (section
7): a failed operation leaves the ledger as it was. -/
def apply (s : Ledger) : Op → Ledger
  | .create c d ps t =>
    match s.createBill c d ps t with
    | .ok (s1, _) => s1
    | .error _ => s
  | .pay id p a =>
    match s.payShare id p a with
    | .ok s1 => s1
    | .error _ => s
  | .withdraw id c =>
    match s.withdrawFunds id c with
    | .ok (s1, _) => s1
    | .error _ => s

/-- Modelled from the spec: the funds an operation releases from custody, the
withdrawn amount of a successful `withdrawFunds` and nothing otherwise
(section 4.3). -/
def released (s : Ledger) : Op → Nat
  | .withdraw id c =>
    match s.withdrawFunds id c with
    | .ok (_, amount) => amount
    | .error _ => 0
  | _ => 0

/-- The ledger after a sequence of operations. -/
def run (s : Ledger) (ops : List Op) : Ledger := ops.foldl apply s

/-- A state is reachable when some sequence of operations leads to it from the
empty ledger. -/
def Reachable (s : Ledger) : Prop := ∃ ops : List Op, run empty ops = s

end Ledger

/-- The per-bill facts that hold in every reachable state. -/
structure BillOk (b : Bill) : Prop where
  paid_nodup : b.paidBy.Nodup
  paid_sub : ∀ a ∈ b.paidBy, a ∈ b.participants
  active_total : b.isActive = true → b.totalPaid = b.amountPerPerson * b.paidBy.length
  closed_total : b.isActive = false → b.totalPaid = 0
  closed_paid : b.isActive = false → 0 < b.amountPerPerson * b.paidBy.length

/-- The scenario of section 8 cut short: one of two participants pays, then the
creator withdraws. -/
def earlyWithdrawal : List Op :=
  [ .create "carol" "dinner" ["alice", "bob"] 100
  , .pay 0 "alice" 50
  , .withdraw 0 "carol" ]

/-- Every bill of the ledger satisfies the per-bill facts. -/
def LedgerOk (s : Ledger) : Prop := ∀ b ∈ s.bills, BillOk b

/-- The state of the ledger after one of two participants has paid. -/
def onePayment : List Op :=
  [ .create "carol" "dinner" ["alice", "bob"] 100
  , .pay 0 "alice" 50 ]

/-! ## Part II: the contract interface declared by the front end -/

/-- The human-readable interface of the contract, `CONTRACT_ABI` of `app.js`
(lines 2-13), entry by entry. -/
def CONTRACT_ABI : List String :=
  [ "function createBill(string memory _description, address[] memory _participants) external payable returns (uint256)"
  , "function payShare(uint256 _billId) external payable"
  , "function withdrawFunds(uint256 _billId) external"
  , "function getBill(uint256 _billId) external view returns (address creator, string memory description, uint256 totalAmount, uint256 amountPerPerson, address[] memory participants, uint256 totalPaid, bool isActive)"
  , "function hasPaid(uint256 _billId, address _user) external view returns (bool)"
  , "function allPaid(uint256 _billId) external view returns (bool)"
  , "function billCounter() external view returns (uint256)"
  , "event BillCreated(uint256 indexed billId, address indexed creator, string description, uint256 totalAmount, uint256 participantCount)"
  , "event PaymentMade(uint256 indexed billId, address indexed payer, uint256 amount)"
  , "event BillCompleted(uint256 indexed billId)" ]

/-- Cuts a text at every occurrence of the separator. -/
def splitAtChar (sep : Char) : List Char → List (List Char)
  | [] => [[]]
  | c :: cs =>
    if c = sep then [] :: splitAtChar sep cs
    else
      match splitAtChar sep cs with
      | [] => [[c]]
      | w :: ws => (c :: w) :: ws

/-- The words of a text: its maximal runs without a blank. -/
def abiWords (t : List Char) : List String :=
  ((splitAtChar ' ' t).filter (fun w => !w.isEmpty)).map String.mk

/-- One declared parameter or field: its type (first word) and its name (last
word; the modifiers `memory` and `indexed` stand in between). -/
structure AbiParam where
  type : String
  name : String
deriving DecidableEq, Repr

/-- One entry of the interface. -/
structure AbiDecl where
  kind : String
  name : String
  inputs : List AbiParam
  outputs : List AbiParam
deriving DecidableEq, Repr

/-- The parameters written in a comma-separated list. -/
def abiParams (t : List Char) : List AbiParam :=
  ((splitAtChar ',' t).map abiWords).filterMap fun ws =>
    match ws.head?, ws.getLast? with
    | some ty, some nm => some { type := ty, name := nm }
    | _, _ => none

/-- The text between the first opening bracket and the next closing one. -/
def firstBracket (t : List Char) : List Char :=
  ((t.dropWhile (fun c => c != '(')).drop 1).takeWhile (fun c => c != ')')

/-- Reads one entry of the interface: the kind is the first word, the name runs
up to the first bracket, the inputs stand in the first pair of brackets and the
outputs in the pair that follows `returns`. -/
def parseAbi (entry : String) : AbiDecl :=
  let t := entry.data
  let kind := t.takeWhile (fun c => c != ' ')
  let afterKind := (t.dropWhile (fun c => c != ' ')).drop 1
  let name := afterKind.takeWhile (fun c => c != '(')
  let afterInputs := (afterKind.dropWhile (fun c => c != ')')).drop 1
  { kind := String.mk kind
    name := String.mk name
    inputs := abiParams (firstBracket afterKind)
    outputs := abiParams (firstBracket afterInputs) }

/-- The event declarations of the interface. -/
def abiEvents : List AbiDecl :=
  (CONTRACT_ABI.map parseAbi).filter (fun d => d.kind == "event")

/-- The function of the interface with the given name. -/
def abiFunction (name : String) : Option AbiDecl :=
  (CONTRACT_ABI.map parseAbi).find? (fun d => d.kind == "function" && d.name == name)

/-- A notification as the specification lists it (section 6): a name and its
fields in order. -/
structure Notification where
  name : String
  fields : List String
deriving DecidableEq, Repr

/-- The four notifications of section 6 of the specification, in its words. -/
def specNotifications : List Notification :=
  [ { name := "Created", fields := ["id", "creator", "description", "totalAmount", "participantCount"] }
  , { name := "Paid", fields := ["id", "payer", "amount"] }
  , { name := "Completed", fields := ["id"] }
  , { name := "Withdrawn", fields := ["id", "creator", "amount"] } ]

/-- The interface calls the bill identifier `billId` where the specification
writes `id`. -/
def abiFieldName (specField : String) : String :=
  if specField == "id" then "billId" else specField

/-- An event declaration matches a notification when it has the notification's
fields in the same order. -/
def AbiDecl.declares (d : AbiDecl) (n : Notification) : Bool :=
  d.inputs.map (fun p => p.name) == n.fields.map abiFieldName

/-! ## Part III: the front end (`app.js`)

The front end is sequential code that talks to three collaborators: the
browser and `ethers` library functions it calls, the contract (through
`ethers.Contract`), and the page.  Library functions whose code is not in the
repository are fields of `Library`; the answers of the contract are fields of
`Contract`; what the code does to the page and to the contract is the list of
`Effect`s a function returns, in program order.  Styling, `console.error` and
the wallet connection are not modelled. -/

/-- A thrown JavaScript error; `message` is empty when the error has none. -/
structure JsError where
  message : String
deriving DecidableEq, Repr

/-- What comparing a JavaScript number with 0 can tell: it is `NaN`, below 0,
(plus or minus) 0, or above 0. -/
inductive JsNumber
  | nan
  | negative
  | zero
  | positive
deriving DecidableEq, Repr

/-- The JavaScript test `x <= 0`; it is false on `NaN`. -/
def JsNumber.leZero : JsNumber → Bool
  | .negative => true
  | .zero => true
  | .nan => false
  | .positive => false

/-- The library functions `app.js` calls and whose code is outside the
repository. -/
structure Library where
  /-- The test `ethers.utils.isAddress`. -/
  isAddress : String → Bool
  /-- The method `String.prototype.toLowerCase`. -/
  toLowerCase : String → String
  /-- The global `parseFloat`, up to the sign of its result. -/
  parseFloat : String → JsNumber
  /-- The function `ethers.utils.parseEther`: the amount in wei, or the error
  it throws. -/
  parseEther : String → Except JsError Int

/-- The white space and line terminators that `String.prototype.trim` removes. -/
def isJsWhiteSpace (c : Char) : Bool :=
  let n := c.toNat
  n == 9 || n == 10 || n == 11 || n == 12 || n == 13 || n == 32 || n == 160
    || n == 5760 || (8192 ≤ n && n ≤ 8202) || n == 8232 || n == 8233 || n == 8239
    || n == 8287 || n == 12288 || n == 65279

/-- The method `String.prototype.trim`: white space removed at both ends. -/
def jsTrim (s : String) : String :=
  String.mk ((((s.data.dropWhile isJsWhiteSpace).reverse).dropWhile isJsWhiteSpace).reverse)

/-- The method `BigNumber.toNumber` on a non-negative value: the value itself
when it fits in 53 bits, an exception otherwise. -/
def toNumber (n : Nat) : Option Nat :=
  if n < 2 ^ 53 then some n else none

/-- The result of `getBill`, decoded by `ethers` according to `CONTRACT_ABI`: an
array of seven values in the order of the declaration. -/
structure BillView where
  creator : String
  description : String
  totalAmount : Nat
  amountPerPerson : Nat
  participants : List String
  totalPaid : Nat
  isActive : Bool
deriving DecidableEq, Repr

/-- A decoded value, or `undefined`. -/
inductive JsValue
  | undefined
  | address (a : String)
  | string (s : String)
  | uint (n : Nat)
  | addresses (l : List String)
  | bool (b : Bool)
deriving DecidableEq, Repr

/-- The array a `getBill` result is: positions 0 to 6. -/
def BillView.toArray (b : BillView) : List JsValue :=
  [ .address b.creator, .string b.description, .uint b.totalAmount, .uint b.amountPerPerson
  , .addresses b.participants, .uint b.totalPaid, .bool b.isActive ]

/-- Indexing `bill[i]`; `undefined` past the end. -/
def BillView.index (b : BillView) (i : Nat) : JsValue :=
  (b.toArray[i]?).getD .undefined

/-- The fate of a submitted transaction: the call itself throws (`rejected`),
the transaction is sent and `tx.wait()` throws (`failed`), or it is mined and
yields a receipt. -/
inductive TxResult (ρ : Type)
  | rejected (e : JsError)
  | failed (e : JsError)
  | mined (receipt : ρ)
deriving DecidableEq, Repr

/-- The answers of the contract object to the calls the front end makes.  An
event of a receipt is kept as its name and its `billId` argument. -/
structure Contract where
  billCounter : Except JsError Nat
  getBill : Nat → Except JsError BillView
  hasPaid : Nat → String → Except JsError Bool
  allPaid : Nat → Except JsError Bool
  createBill : String → List String → Int → TxResult (List (String × Nat))
  payShare : Nat → JsValue → TxResult Unit
  withdrawFunds : Nat → TxResult Unit

/-- The globals `contract` and `userAddress` once `connectWallet` has run; it
assigns `userAddress` before `contract`. -/
structure Wallet where
  contract : Contract
  userAddress : String

/-- A call on the contract object. -/
inductive Call
  | createBill (description : String) (participants : List String) (value : Int)
  | payShare (billId : Nat) (value : JsValue)
  | withdrawFunds (billId : Nat)
  | getBill (billId : Nat)
  | hasPaid (billId : Nat) (user : String)
  | allPaid (billId : Nat)
  | billCounter
deriving DecidableEq, Repr

/-- The second argument of `showStatus`. -/
inductive StatusType
  | error
  | info
  | success
deriving DecidableEq, Repr

/-- One card of the bill list (`loadBills`, lines 207-241); amounts are the
arguments of `formatEther`. -/
structure BillCard where
  billId : Nat
  badge : String
  description : String
  totalAmount : Nat
  amountPerPerson : Nat
  youCreated : Bool
  note : String
deriving DecidableEq, Repr

/-- The control at the end of a participant row of the details view. -/
inductive RowControl
  | paid
  | payButton (billId : Nat)
  | pending
deriving DecidableEq, Repr

/-- One participant row of the details view (lines 302-321). -/
structure DetailRow where
  participant : String
  paidClass : Bool
  you : Bool
  amount : Nat
  control : RowControl
deriving DecidableEq, Repr

/-- The withdraw button (lines 325-327): the bill it withdraws and the amount
it shows. -/
structure WithdrawButton where
  billId : Nat
  amount : Nat
deriving DecidableEq, Repr

/-- The details view `showBillDetails` builds (lines 273-328). -/
structure DetailsView where
  description : String
  billId : Nat
  badge : String
  totalAmount : Nat
  amountPerPerson : Nat
  collected : Nat
  creator : String
  youAreCreator : Bool
  participantCount : Nat
  rows : List DetailRow
  withdraw : Option WithdrawButton
deriving DecidableEq, Repr

/-- The callback a `setTimeout` of the front end registers: the one of
`createBill` (lines 154-157), which calls `switchTab("view")` and then
`loadBills()`, or the one of `payShare` and `withdrawFunds` (lines 363 and
388), which calls `showBillDetails(billId)`. -/
inductive Later
  | switchTabThenLoadBills
  | showBillDetails (billId : Nat)
deriving DecidableEq, Repr

/-- The observable steps of the front end, in program order. -/
inductive Effect
  | status (message : String) (type : StatusType)
  | call (c : Call)
  | createButton (disabled : Bool)
  | clearForm
  | listCleared
  | listEmptyMessage
  | cardAppended (card : BillCard)
  | detailsShown (view : DetailsView)
  | timer (ms : Nat) (task : Later)
  | tabButtonsDeactivated
  | tabButtonActivated
  | tabContentShown (tab : String)
  | detailsHidden
deriving DecidableEq, Repr

/-- The contract calls among the effects, in order. -/
def callsOf : List Effect → List Call
  | [] => []
  | .call c :: es => c :: callsOf es
  | _ :: es => callsOf es

/-- The last message `showStatus` displayed, if any: each call replaces the
content of the status container. -/
def lastStatus : List Effect → Option (String × StatusType)
  | [] => none
  | .status m t :: es =>
    match lastStatus es with
    | some r => some r
    | none => some (m, t)
  | _ :: es => lastStatus es

/-- The text `error.message || "Unknown error"`. -/
def messageOrUnknown (e : JsError) : String :=
  if e.message.isEmpty then "Unknown error" else e.message

/-- The badge text `isActive ? "Active" : "Completed"`. -/
def badgeText (isActive : Bool) : String :=
  if isActive then "Active" else "Completed"

/-! ### `createBill` (lines 89-167) -/

/-- The state of the create form: the description, the amount as typed, and the
values of the `.person-address` inputs in document order. -/
structure CreateForm where
  description : String
  totalAmount : String
  addresses : List String
deriving DecidableEq, Repr

/-- The loop of lines 109-115: each input is trimmed and pushed when it is
non-empty and a valid address. -/
def collectParticipants (lib : Library) (inputs : List String) : List String :=
  inputs.foldl
    (fun participants input =>
      let addr := jsTrim input
      if !addr.isEmpty && lib.isAddress addr then participants ++ [addr] else participants)
    []

/-- The `catch` block of `createBill` (lines 158-166). -/
def createFailed (e : JsError) : List Effect :=
  [ .status ("Transaction failed: " ++ messageOrUnknown e) .error
  , .createButton false ]

/-- The error of reading `.args` of `undefined`, when the receipt has no
`BillCreated` event. -/
def noEventError : JsError :=
  { message := "Cannot read properties of undefined" }

/-- The function `createBill` of `app.js`. -/
def createBill (lib : Library) (wallet : Option Wallet) (form : CreateForm) : List Effect :=
  match wallet with
  | none => [.status "Please connect wallet first!" .error]
  | some w =>
    let description := jsTrim form.description
    let totalAmount := form.totalAmount
    if description.isEmpty then [.status "Please enter a description!" .error]
    else if totalAmount.isEmpty || (lib.parseFloat totalAmount).leZero then
      [.status "Please enter a valid amount!" .error]
    else
      let participants := collectParticipants lib form.addresses
      if participants.length == 0 then
        [.status "Add at least one valid wallet address!" .error]
      else
        [ .createButton true
        , .status "Creating bill... Please confirm transaction" .info ] ++
        match lib.parseEther totalAmount with
        | .error e => createFailed e
        | .ok amountWei =>
          .call (.createBill description participants amountWei) ::
          match w.contract.createBill description participants amountWei with
          | .rejected e => createFailed e
          | .failed e =>
            .status "Transaction sent! Waiting for confirmation..." .info :: createFailed e
          | .mined events =>
            .status "Transaction sent! Waiting for confirmation..." .info ::
            match events.find? (fun ev => ev.1 == "BillCreated") with
            | none => createFailed noEventError
            | some ev =>
              [ .status ("Bill created successfully! ID: " ++ toString ev.2 ++ " ✅") .success
              , .clearForm
              , .createButton false
              , .timer 2000 .switchTabThenLoadBills ]

/-! ### `loadBills` (lines 169-247) -/

/-- The `catch` block of `loadBills`. -/
def loadFailed : List Effect :=
  [.status "Failed to load bills" .error]

/-- The test `x.toLowerCase() === userAddress.toLowerCase()`. -/
def sameAddress (lib : Library) (x user : String) : Bool :=
  lib.toLowerCase x == lib.toLowerCase user

/-- The card of lines 207-239. -/
def billCard (i : Nat) (bill : BillView) (isCreator isParticipant hasPaid : Bool) : BillCard :=
  { billId := i
    badge := badgeText bill.isActive
    description := bill.description
    totalAmount := bill.totalAmount
    amountPerPerson := bill.amountPerPerson
    youCreated := isCreator
    note :=
      if isParticipant && !isCreator then
        (if hasPaid then "✅ You paid" else "⏳ You need to pay")
      else "" }

/-- The `for` loop of lines 183-242 over the remaining identifiers; an
exception ends it in the `catch` block, the cards appended so far stay. -/
def loadLoop (lib : Library) (w : Wallet) : List Nat → List Effect
  | [] => []
  | i :: rest =>
    .call (.getBill i) ::
    match w.contract.getBill i with
    | .error _ => loadFailed
    | .ok bill =>
      let isCreator := sameAddress lib bill.creator w.userAddress
      let isParticipant := bill.participants.any (fun p => sameAddress lib p w.userAddress)
      if !isCreator && !isParticipant then loadLoop lib w rest
      else if isParticipant then
        .call (.hasPaid i w.userAddress) ::
        match w.contract.hasPaid i w.userAddress with
        | .error _ => loadFailed
        | .ok hasPaid =>
          .cardAppended (billCard i bill isCreator isParticipant hasPaid) :: loadLoop lib w rest
      else
        .cardAppended (billCard i bill isCreator isParticipant false) :: loadLoop lib w rest

/-- The function `loadBills` of `app.js`. -/
def loadBills (lib : Library) (wallet : Option Wallet) : List Effect :=
  match wallet with
  | none => []
  | some w =>
    .call .billCounter ::
    match w.contract.billCounter with
    | .error _ => loadFailed
    | .ok billCounter =>
      .listCleared ::
      match toNumber billCounter with
      | none => loadFailed
      | some n =>
        if n == 0 then [.listEmptyMessage]
        else loadLoop lib w (List.range n)

/-! ### `showBillDetails` (lines 249-337) -/

/-- The `catch` block of `showBillDetails`. -/
def detailsFailed : List Effect :=
  [.status "Failed to load bill details" .error]

/-- The row of lines 302-321 for one participant. -/
def detailRow (lib : Library) (userAddress : String) (billId : Nat) (bill : BillView)
    (participant : String) (hasPaid : Bool) : DetailRow :=
  let isMe := sameAddress lib participant userAddress
  { participant := participant
    paidClass := hasPaid
    you := isMe
    amount := bill.amountPerPerson
    control :=
      if hasPaid then .paid
      else if isMe && bill.isActive then .payButton billId
      else .pending }

/-- The `for` loop of lines 298-322: the calls it makes and, unless `hasPaid`
throws, the rows it adds. -/
def detailRows (lib : Library) (w : Wallet) (billId : Nat) (bill : BillView) :
    List String → List Effect × Option (List DetailRow)
  | [] => ([], some [])
  | participant :: rest =>
    match w.contract.hasPaid billId participant with
    | .error _ => ([.call (.hasPaid billId participant)], none)
    | .ok hasPaid =>
      let r := detailRows lib w billId bill rest
      (.call (.hasPaid billId participant) :: r.1,
        r.2.map (fun rows => detailRow lib w.userAddress billId bill participant hasPaid :: rows))

/-- The view of lines 273-328, given the rows. -/
def detailsView (lib : Library) (userAddress : String) (billId : Nat) (bill : BillView)
    (rows : List DetailRow) : DetailsView :=
  let isCreator := sameAddress lib bill.creator userAddress
  { description := bill.description
    billId := billId
    badge := badgeText bill.isActive
    totalAmount := bill.totalAmount
    amountPerPerson := bill.amountPerPerson
    collected := bill.totalPaid
    creator := bill.creator
    youAreCreator := isCreator
    participantCount := bill.participants.length
    rows := rows
    withdraw :=
      if isCreator && decide (bill.totalPaid > 0) then
        some { billId := billId, amount := bill.totalPaid }
      else none }

/-- The part of `showBillDetails` after the reads of lines 253-271. -/
def showRows (lib : Library) (w : Wallet) (billId : Nat) (bill : BillView) : List Effect :=
  let r := detailRows lib w billId bill bill.participants
  r.1 ++
    match r.2 with
    | none => detailsFailed
    | some rows => [.detailsShown (detailsView lib w.userAddress billId bill rows)]

/-- The read of line 271 and what follows it. -/
def showAfterUserRead (lib : Library) (w : Wallet) (billId : Nat) (bill : BillView) :
    List Effect :=
  .call (.allPaid billId) ::
  match w.contract.allPaid billId with
  | .error _ => detailsFailed
  | .ok _ => showRows lib w billId bill

/-- The function `showBillDetails` of `app.js`. -/
def showBillDetails (lib : Library) (wallet : Option Wallet) (billId : Nat) : List Effect :=
  match wallet with
  | none => []
  | some w =>
    .call (.getBill billId) ::
    match w.contract.getBill billId with
    | .error _ => detailsFailed
    | .ok bill =>
      let isParticipant := bill.participants.any (fun p => sameAddress lib p w.userAddress)
      if isParticipant then
        .call (.hasPaid billId w.userAddress) ::
        match w.contract.hasPaid billId w.userAddress with
        | .error _ => detailsFailed
        | .ok _ => showAfterUserRead lib w billId bill
      else showAfterUserRead lib w billId bill

/-! ### `payShare` (lines 345-371) and `withdrawFunds` (lines 373-396) -/

/-- The `catch` block of `payShare`. -/
def payFailed (e : JsError) : List Effect :=
  [.status ("Payment failed: " ++ messageOrUnknown e) .error]

/-- The function `payShare` of `app.js`. -/
def payShare (wallet : Option Wallet) (billId : Nat) : List Effect :=
  match wallet with
  | none => []
  | some w =>
    .call (.getBill billId) ::
    match w.contract.getBill billId with
    | .error e => payFailed e
    | .ok bill =>
      let amountPerPerson := bill.index 3
      .status "Sending payment... Please confirm transaction" .info ::
      .call (.payShare billId amountPerPerson) ::
      match w.contract.payShare billId amountPerPerson with
      | .rejected e => payFailed e
      | .failed e =>
        .status "Transaction sent! Waiting for confirmation..." .info :: payFailed e
      | .mined _ =>
        [ .status "Transaction sent! Waiting for confirmation..." .info
        , .status "Payment successful! ✅" .success
        , .timer 2000 (.showBillDetails billId) ]

/-- The `catch` block of `withdrawFunds`. -/
def withdrawFailed (e : JsError) : List Effect :=
  [.status ("Withdrawal failed: " ++ messageOrUnknown e) .error]

/-- The function `withdrawFunds` of `app.js`. -/
def withdrawFunds (wallet : Option Wallet) (billId : Nat) : List Effect :=
  match wallet with
  | none => []
  | some w =>
    .status "Withdrawing funds... Please confirm transaction" .info ::
    .call (.withdrawFunds billId) ::
    match w.contract.withdrawFunds billId with
    | .rejected e => withdrawFailed e
    | .failed e =>
      .status "Transaction sent! Waiting for confirmation..." .info :: withdrawFailed e
    | .mined _ =>
      [ .status "Transaction sent! Waiting for confirmation..." .info
      , .status "Withdrawal successful! ✅" .success
      , .timer 2000 (.showBillDetails billId) ]

/-! ### `switchTab` (lines 398-420) and the timer callbacks -/

/-- The error of reading `.target` of `undefined`. -/
def noTargetError : JsError :=
  { message := "Cannot read properties of undefined" }

/-- The function `switchTab` of `app.js`: its effects and the error it throws,
if any.  Line 403 reads the global `event`, which the browser sets only while
an event handler runs; `duringEvent` tells whether one does.  Outside a handler
`event` is `undefined`, so `event.target` throws once the buttons have been
deactivated.  For the view tab `loadBills()` is started and not awaited: its
first step runs at once, the rest after `switchTab` has returned. -/
def switchTab (lib : Library) (wallet : Option Wallet) (duringEvent : Bool) (tab : String) :
    List Effect × Option JsError :=
  if !duringEvent then ([.tabButtonsDeactivated], some noTargetError)
  else if tab == "create" then
    ([.tabButtonsDeactivated, .tabButtonActivated, .tabContentShown "createTab", .detailsHidden],
      none)
  else
    ([.tabButtonsDeactivated, .tabButtonActivated, .tabContentShown "viewTab"]
        ++ (loadBills lib wallet).take 1 ++ [.detailsHidden] ++ (loadBills lib wallet).drop 1,
      none)

/-- What a timer callback does when it fires: no event handler runs then.  In
the callback of `createBill`, `loadBills()` (line 156) follows
`switchTab("view")` (line 155) and runs only if that call returns. -/
def runLater (lib : Library) (wallet : Option Wallet) : Later → List Effect × Option JsError
  | .switchTabThenLoadBills =>
    match switchTab lib wallet false "view" with
    | (effects, some e) => (effects, some e)
    | (effects, none) => (effects ++ loadBills lib wallet, none)
  | .showBillDetails billId => (showBillDetails lib wallet billId, none)

/-! ### Reading the effects -/

/-- The identifiers `getBill` was asked for, in order. -/
def getBillIds : List Effect → List Nat
  | [] => []
  | .call (.getBill i) :: es => i :: getBillIds es
  | _ :: es => getBillIds es

/-- The cards appended to the bill list, in order. -/
def cardsOf : List Effect → List BillCard
  | [] => []
  | .cardAppended card :: es => card :: cardsOf es
  | _ :: es => cardsOf es

/-- The views `showBillDetails` displayed. -/
def viewsOf : List Effect → List DetailsView
  | [] => []
  | .detailsShown view :: es => view :: viewsOf es
  | _ :: es => viewsOf es

/-- The user is the creator of the bill or one of its participants, addresses
compared through `toLowerCase` (lines 196-201). -/
def involved (lib : Library) (user : String) (bill : BillView) : Bool :=
  sameAddress lib bill.creator user || bill.participants.any (fun p => sameAddress lib p user)

/-! ### A reference library

Concrete versions of the library functions, written from the ECMAScript
specification (`parseFloat`, `toLowerCase`) and from the `ethers` v5 source
(`parseEther`, `isAddress`).  The theorems below hold for every `Library`
that meets the stated conditions; the reference library shows the conditions
can be met and serves for the concrete evaluations. -/

/-- A decimal digit `0`-`9`. -/
def isDecimalDigit (c : Char) : Bool :=
  decide (48 ≤ c.toNat) && decide (c.toNat ≤ 57)

/-- The value of a decimal digit. -/
def digitValue (c : Char) : Nat := c.toNat - 48

/-- The number a string of decimal digits denotes, read from the right. -/
def digitsValueRev : List Char → Nat
  | [] => 0
  | c :: cs => digitValue c + 10 * digitsValueRev cs

/-- The number a string of decimal digits denotes. -/
def digitsValue (ds : List Char) : Nat := digitsValueRev ds.reverse

/-- The loop `while (fraction[fraction.length - 1] === "0")` of `parseFixed`. -/
def trimTrailingZeros (ds : List Char) : List Char :=
  (ds.reverse.dropWhile (fun c => c == '0')).reverse

/-- The assignment `if (!x) { x = "0"; }` of `parseFixed` (and, after the
trimming, `if (x === "") { x = "0"; }`). -/
def orZero (ds : List Char) : List Char :=
  if ds.isEmpty then ['0'] else ds

/-- The body of `parseFixed(value, 18)` of `ethers` v5 once the sign has been
taken off: the value must consist of digits and points, must not be `.`, may
hold one decimal point and at most 18 significant fraction digits. -/
def parseFixedBody (negative : Bool) (body : List Char) : Except JsError Int :=
  if body.isEmpty || !(body.all (fun c => isDecimalDigit c || c == '.')) then
    .error { message := "invalid decimal value" }
  else if body == ['.'] then .error { message := "missing value" }
  else
    let comps := splitAtChar '.' body
    if comps.length > 2 then .error { message := "too many decimal points" }
    else
      let whole := orZero (comps.headD [])
      let fraction := trimTrailingZeros (orZero ((comps.drop 1).headD []))
      if fraction.length > 18 then
        .error { message := "fractional component exceeds decimals" }
      else
        let fraction := orZero fraction
        let fraction := fraction ++ List.replicate (18 - fraction.length) '0'
        let wei : Int := (digitsValue whole : Int) * 10 ^ 18 + (digitsValue fraction : Int)
        .ok (if negative then -wei else wei)

/-- The function `parseEther` of `ethers` v5, that is `parseFixed(value, 18)`:
the value must match `/^-?[0-9.]+$/`; a leading `-` is the sign. -/
def parseEtherRef (value : String) : Except JsError Int :=
  let v := value.data
  let negative := v.head? == some '-'
  parseFixedBody negative (if negative then v.drop 1 else v)

/-- The exponent part of a decimal literal (`e` or `E`, an optional sign, at
least one digit) at the start of the text, 0 when there is none. -/
def exponentPart (r : List Char) : Int :=
  if r.head? == some 'e' || r.head? == some 'E' then
    let r1 := r.drop 1
    let r2 := if r1.head? == some '-' || r1.head? == some '+' then r1.drop 1 else r1
    let ds := r2.takeWhile isDecimalDigit
    if ds.isEmpty then 0
    else if r1.head? == some '-' then -(digitsValue ds : Int)
    else (digitsValue ds : Int)
  else 0

/-- Whether the positive real `m * 10 ^ e` rounds to 0 as a double: it does
when it is at most `2 ^ (-1075)`, half the smallest positive double. -/
def roundsToZero (m : Nat) (e : Int) : Bool :=
  if 0 ≤ e then false else decide (m * 2 ^ 1075 ≤ 10 ^ e.natAbs)

/-- The sign of the number the longest `StrUnsignedDecimalLiteral` at the start
of the text denotes, with the sign read before it; `NaN` when no prefix is such
a literal. -/
def unsignedLiteral (negative : Bool) (u : List Char) : JsNumber :=
  if "Infinity".data.isPrefixOf u then (if negative then .negative else .positive)
  else
    let intDigits := u.takeWhile isDecimalDigit
    let r1 := u.dropWhile isDecimalDigit
    let fracDigits := if r1.head? == some '.' then (r1.drop 1).takeWhile isDecimalDigit else []
    let r2 := if r1.head? == some '.' then (r1.drop 1).dropWhile isDecimalDigit else r1
    if intDigits.isEmpty && fracDigits.isEmpty then .nan
    else
      let mantissa := digitsValue (intDigits ++ fracDigits)
      let exponent : Int := exponentPart r2 - (fracDigits.length : Int)
      if mantissa == 0 || roundsToZero mantissa exponent then .zero
      else if negative then .negative
      else .positive

/-- The global `parseFloat`, up to the sign of the result: leading white space
is skipped, the longest prefix that is a `StrDecimalLiteral` (a sign and an
unsigned literal) is read, and the result is `NaN` when there is none. -/
def parseFloatRef (s : String) : JsNumber :=
  let t := s.data.dropWhile isJsWhiteSpace
  let negative := t.head? == some '-'
  unsignedLiteral negative (if t.head? == some '-' || t.head? == some '+' then t.drop 1 else t)

/-- A lower-case hexadecimal digit. -/
def isLowerHexDigit (c : Char) : Bool :=
  isDecimalDigit c || (decide (97 ≤ c.toNat) && decide (c.toNat ≤ 102))

/-- The test `ethers.utils.isAddress` on the strings that need no checksum: `0x`
followed by 40 lower-case hexadecimal digits is an address.  Mixed-case
addresses, which `ethers` checks against their checksum, and the other
accepted forms are left out. -/
def isAddressRef (s : String) : Bool :=
  s.data.take 2 == ['0', 'x'] && (s.data.drop 2).length == 40
    && (s.data.drop 2).all isLowerHexDigit

/-- The method `toLowerCase` on the letters `A`-`Z`. -/
def toLowerCaseRef (s : String) : String :=
  String.mk (s.data.map Char.toLower)

/-- The reference library. -/
def referenceLibrary : Library :=
  { isAddress := isAddressRef
    toLowerCase := toLowerCaseRef
    parseFloat := parseFloatRef
    parseEther := parseEtherRef }

/-- What the front end relies on when it checks the amount with `parseFloat`
and converts it with `parseEther`: a string `parseEther` accepts is a decimal
literal, so `parseFloat` reads a number from it, and when that number is above
0 the amount in wei is above 0. -/
structure Library.AmountsAgree (lib : Library) : Prop where
  number_of_parsed : ∀ s wei, lib.parseEther s = .ok wei → lib.parseFloat s ≠ .nan
  positive_of_parsed : ∀ s wei, lib.parseEther s = .ok wei →
    lib.parseFloat s = .positive → 0 < wei

/-! ### The ledger behind the contract object -/

/-- The error a rejected call carries. -/
def LedgerError.toJsError : LedgerError → JsError
  | .InvalidInput => { message := "InvalidInput" }
  | .NotFound => { message := "NotFound" }
  | .Inactive => { message := "Inactive" }
  | .NotParticipant => { message := "NotParticipant" }
  | .AlreadyPaid => { message := "AlreadyPaid" }
  | .WrongAmount => { message := "WrongAmount" }
  | .Unauthorized => { message := "Unauthorized" }
  | .NothingToWithdraw => { message := "NothingToWithdraw" }
  | .Overflow => { message := "Overflow" }

/-- The `getBill` result of a bill: the seven fields the interface returns
(`paidBy` is not among them). -/
def Bill.view (b : Bill) : BillView :=
  { creator := b.creator
    description := b.description
    totalAmount := b.totalAmount
    amountPerPerson := b.amountPerPerson
    participants := b.participants
    totalPaid := b.totalPaid
    isActive := b.isActive }

/-- Modelled from the spec: the contract object of a caller when the contract
is the ledger in state `s`: reads are the queries of sections 4.1 and 4.2, a
transaction is mined when the operation succeeds and rejected with the
operation's error otherwise. -/
def Ledger.contract (s : Ledger) (caller : Address) : Contract :=
  { billCounter := .ok s.billCount
    getBill := fun id => (s.getBill id).map Bill.view |>.mapError LedgerError.toJsError
    hasPaid := fun id a => (s.hasPaid id a).mapError LedgerError.toJsError
    allPaid := fun id => (s.allPaid id).mapError LedgerError.toJsError
    createBill := fun d ps v =>
      match s.createBill caller d ps v.toNat with
      | .ok (_, id) => .mined [("BillCreated", id)]
      | .error e => .rejected e.toJsError
    payShare := fun id v =>
      match v with
      | .uint amount =>
        match s.payShare id caller amount with
        | .ok _ => .mined ()
        | .error e => .rejected e.toJsError
      | _ => .rejected { message := "invalid value" }
    withdrawFunds := fun id =>
      match s.withdrawFunds id caller with
      | .ok _ => .mined ()
      | .error e => .rejected e.toJsError }

/-! ### Concrete situations used in the evaluations -/

/-- A valid address in the form that needs no checksum. -/
def addrA : String := "0x00000000000000000000000000000000000000aa"

/-- A second valid address. -/
def addrB : String := "0x00000000000000000000000000000000000000bb"

/-- The address of a creator. -/
def addrC : String := "0x00000000000000000000000000000000000000cc"

/-- A ledger with one bill of 100 between `addrA` and `addrB`, created by
`addrC`; `addrA` has paid. -/
def sampleLedger : Ledger :=
  Ledger.run Ledger.empty
    [ .create addrC "dinner" [addrA, addrB] 100
    , .pay 0 addrA 50 ]

/-- The wallet of a user of `sampleLedger`. -/
def sampleWallet (user : String) : Wallet :=
  { contract := sampleLedger.contract user, userAddress := user }

/-- A create form in which the same address is entered twice. -/
def repeatedForm : CreateForm :=
  { description := " dinner ", totalAmount := "1", addresses := [addrA, " " ++ addrA, "", "bob"] }

/-- The answer of `getBill(0)` on `sampleLedger`. -/
def sampleBill : BillView :=
  { creator := addrC, description := "dinner", totalAmount := 100, amountPerPerson := 50,
    participants := [addrA, addrB], totalPaid := 50, isActive := true }

/-- The details view of bill 0 of `sampleLedger` for a user. -/
def sampleView (user : String) : DetailsView :=
  detailsView referenceLibrary user 0 sampleBill
    [ detailRow referenceLibrary user 0 sampleBill addrA true
    , detailRow referenceLibrary user 0 sampleBill addrB false ]

/-- A contract whose counter has left the range of JavaScript integers and
which answers every other read. -/
def hugeCounter : Contract :=
  { sampleLedger.contract addrB with
    billCounter := .ok (2 ^ 53)
    getBill := fun _ => .ok sampleBill
    hasPaid := fun _ _ => .ok false }

/-- A contract that counts two bills and whose `getBill` call fails, as it does
when the node cannot be reached. -/
def unreachableNode : Contract :=
  { sampleLedger.contract addrB with
    billCounter := .ok 2
    getBill := fun _ => .error { message := "could not detect network" } }

/-! ### What a successful operation does -/

theorem Ledger.createBill_eq_ok {s s1 : Ledger} {c : Address} {d : String} {ps : List Address}
    {t id : Nat} (h : s.createBill c d ps t = .ok (s1, id)) :
    ps ≠ [] ∧ ps.Nodup ∧ t ≠ 0 ∧ id = s.bills.length ∧
      s1.bills = s.bills ++
        [{ creator := c, description := d, totalAmount := t,
           amountPerPerson := t / ps.length, participants := ps, paidBy := [],
           totalPaid := 0, isActive := true }] := by
  unfold Ledger.createBill at h
  split at h
  · cases h
  · rename_i h1
    split at h
    · cases h
    · simp only [Except.ok.injEq, Prod.mk.injEq] at h
      obtain ⟨hs, hid⟩ := h
      simp only [Bool.or_eq_true, List.isEmpty_iff, Bool.not_eq_true', decide_eq_false_iff_not,
        beq_iff_eq, not_or, not_not] at h1
      refine ⟨h1.1.1, h1.1.2, h1.2, hid.symm, ?_⟩
      rw [← hs]

theorem Ledger.payShare_eq_ok {s s1 : Ledger} {id : Nat} {p : Address} {a : Nat}
    (h : s.payShare id p a = .ok s1) :
    ∃ b, s.bills[id]? = some b ∧ b.isActive = true ∧ p ∈ b.participants ∧ p ∉ b.paidBy ∧
      a = b.amountPerPerson ∧
      s1.bills = s.bills.set id
        { b with paidBy := b.paidBy ++ [p], totalPaid := b.totalPaid + a } := by
  unfold Ledger.payShare at h
  split at h
  · cases h
  · rename_i b hb
    split at h
    · cases h
    · rename_i h1
      split at h
      · cases h
      · rename_i h2
        split at h
        · cases h
        · rename_i h3
          split at h
          · cases h
          · rename_i h4
            simp only [Except.ok.injEq] at h
            refine ⟨b, hb, by simpa using h3, by simpa using h1, by simpa using h2,
              by simpa using h4, ?_⟩
            rw [← h]

theorem Ledger.withdrawFunds_eq_ok {s s1 : Ledger} {id : Nat} {c : Address} {amt : Nat}
    (h : s.withdrawFunds id c = .ok (s1, amt)) :
    ∃ b, s.bills[id]? = some b ∧ c = b.creator ∧ b.isActive = true ∧ b.totalPaid ≠ 0 ∧
      amt = b.totalPaid ∧
      s1.bills = s.bills.set id { b with totalPaid := 0, isActive := false } := by
  unfold Ledger.withdrawFunds at h
  split at h
  · cases h
  · rename_i b hb
    split at h
    · cases h
    · rename_i h1
      split at h
      · cases h
      · rename_i h2
        split at h
        · cases h
        · rename_i h3
          simp only [Except.ok.injEq, Prod.mk.injEq] at h
          refine ⟨b, hb, by simpa using h2, by simpa using h1, by simpa using h3, h.2.symm, ?_⟩
          rw [← h.1]

/-! ### Invariants of the reachable states -/

theorem BillOk.of_set {l : List Bill} (h : ∀ b ∈ l, BillOk b) {id : Nat} {b1 : Bill}
    (h1 : BillOk b1) : ∀ b ∈ l.set id b1, BillOk b := by
  intro b hb
  rcases List.mem_or_eq_of_mem_set hb with h2 | h2
  · exact h b h2
  · exact h2 ▸ h1

theorem BillOk.fresh (c : Address) (d : String) (t : Nat) (ps : List Address) :
    BillOk { creator := c, description := d, totalAmount := t,
             amountPerPerson := t / ps.length, participants := ps, paidBy := [],
             totalPaid := 0, isActive := true } where
  paid_nodup := List.nodup_nil
  paid_sub := by simp
  active_total := by simp
  closed_total := by simp
  closed_paid := by simp

theorem BillOk.paid {b : Bill} (h : BillOk b) {p : Address} (hact : b.isActive = true)
    (hp : p ∈ b.participants) (hn : p ∉ b.paidBy) :
    BillOk { b with paidBy := b.paidBy ++ [p],
                    totalPaid := b.totalPaid + b.amountPerPerson } where
  paid_nodup := by
    simp only
    rw [List.nodup_append]
    refine ⟨h.paid_nodup, List.nodup_singleton p, ?_⟩
    intro a ha hb
    simp only [List.mem_singleton] at hb
    exact hn (hb ▸ ha)
  paid_sub := by
    intro a ha
    simp only [List.mem_append, List.mem_singleton] at ha
    rcases ha with ha | ha
    · exact h.paid_sub a ha
    · exact ha ▸ hp
  active_total := by
    intro _
    simp only [List.length_append, List.length_singleton]
    rw [h.active_total hact, Nat.mul_succ]
  closed_total := by
    intro hc
    simp only at hc
    rw [hact] at hc
    cases hc
  closed_paid := by
    intro hc
    simp only at hc
    rw [hact] at hc
    cases hc

theorem BillOk.withdrawn {b : Bill} (h : BillOk b) (hact : b.isActive = true)
    (hne : b.totalPaid ≠ 0) :
    BillOk { b with totalPaid := 0, isActive := false } where
  paid_nodup := h.paid_nodup
  paid_sub := h.paid_sub
  active_total := by intro hc; cases hc
  closed_total := by intro _; rfl
  closed_paid := by
    intro _
    have := h.active_total hact
    exact Nat.pos_of_ne_zero (this ▸ hne)

theorem Ledger.apply_ok (s : Ledger) (op : Op) (h : LedgerOk s) : LedgerOk (s.apply op) := by
  cases op with
  | create c d ps t =>
    simp only [Ledger.apply]
    split
    · rename_i s1 id heq
      obtain ⟨-, -, -, -, hb⟩ := Ledger.createBill_eq_ok heq
      intro b hmem
      rw [hb, List.mem_append, List.mem_singleton] at hmem
      rcases hmem with hmem | hmem
      · exact h b hmem
      · exact hmem ▸ BillOk.fresh c d t ps
    · exact h
  | pay id p a =>
    simp only [Ledger.apply]
    split
    · rename_i s1 heq
      obtain ⟨b, hb, hact, hp, hn, ha, hs⟩ := Ledger.payShare_eq_ok heq
      have hbok : BillOk b := h b (List.getElem?_mem hb)
      intro b2 hmem
      rw [hs] at hmem
      subst ha
      exact BillOk.of_set h (hbok.paid hact hp hn) b2 hmem
    · exact h
  | withdraw id c =>
    simp only [Ledger.apply]
    split
    · rename_i s1 amt heq
      obtain ⟨b, hb, -, hact, hne, -, hs⟩ := Ledger.withdrawFunds_eq_ok heq
      have hbok : BillOk b := h b (List.getElem?_mem hb)
      intro b2 hmem
      rw [hs] at hmem
      exact BillOk.of_set h (hbok.withdrawn hact hne) b2 hmem
    · exact h

theorem Ledger.run_ok (ops : List Op) : ∀ s : Ledger, LedgerOk s → LedgerOk (s.run ops) := by
  induction ops with
  | nil => intro s h; exact h
  | cons op ops ih =>
    intro s h
    exact ih (s.apply op) (s.apply_ok op h)

theorem Ledger.empty_ok : LedgerOk Ledger.empty := by
  intro b hb
  cases hb

theorem Ledger.reachable_ok {s : Ledger} (h : s.Reachable) : LedgerOk s := by
  obtain ⟨ops, rfl⟩ := h
  exact Ledger.run_ok ops _ Ledger.empty_ok

/-! ### A withdrawn bill is frozen -/

theorem Ledger.apply_closed {s : Ledger} {id : Nat} {b : Bill} (hb : s.bills[id]? = some b)
    (hc : b.isActive = false) (op : Op) : (s.apply op).bills[id]? = some b := by
  cases op with
  | create c d ps t =>
    simp only [Ledger.apply]
    split
    · rename_i s1 id1 heq
      obtain ⟨-, -, -, -, hs⟩ := Ledger.createBill_eq_ok heq
      obtain ⟨hlt, -⟩ := List.getElem?_eq_some.mp hb
      rw [hs, List.getElem?_append_left hlt]
      exact hb
    · exact hb
  | pay id1 p a =>
    simp only [Ledger.apply]
    split
    · rename_i s1 heq
      obtain ⟨b1, hb1, hact, -, -, -, hs⟩ := Ledger.payShare_eq_ok heq
      by_cases hid : id1 = id
      · subst hid
        rw [hb] at hb1
        cases hb1
        rw [hc] at hact
        cases hact
      · rw [hs, List.getElem?_set_ne hid]
        exact hb
    · exact hb
  | withdraw id1 c =>
    simp only [Ledger.apply]
    split
    · rename_i s1 amt heq
      obtain ⟨b1, hb1, -, hact, -, -, hs⟩ := Ledger.withdrawFunds_eq_ok heq
      by_cases hid : id1 = id
      · subst hid
        rw [hb] at hb1
        cases hb1
        rw [hc] at hact
        cases hact
      · rw [hs, List.getElem?_set_ne hid]
        exact hb
    · exact hb

theorem Ledger.run_closed (ops : List Op) : ∀ {s : Ledger} {id : Nat} {b : Bill},
    s.bills[id]? = some b → b.isActive = false → (s.run ops).bills[id]? = some b := by
  induction ops with
  | nil => intro s id b hb _; exact hb
  | cons op ops ih =>
    intro s id b hb hc
    exact ih (Ledger.apply_closed hb hc op) hc

theorem Ledger.payShare_of_paid {s : Ledger} {id : Nat} {b : Bill} (hb : s.bills[id]? = some b)
    {p : Address} (hp : p ∈ b.participants) (hpaid : p ∈ b.paidBy) (amount : Nat) :
    s.payShare id p amount = .error LedgerError.AlreadyPaid := by
  unfold Ledger.payShare
  rw [hb]
  simp [hp, hpaid]

theorem Ledger.withdrawFunds_of_closed {s : Ledger} {id : Nat} {b : Bill}
    (hb : s.bills[id]? = some b) (hc : b.isActive = false) (caller : Address) :
    s.withdrawFunds id caller = .error LedgerError.Inactive := by
  unfold Ledger.withdrawFunds
  rw [hb]
  simp [hc]

/-! ### Nobody leaves `paidBy` -/

/-- An operation keeps every bill in its place and keeps in `paidBy` everybody
who was in it. -/
theorem Ledger.apply_paidBy {s : Ledger} {id : Nat} {b : Bill} (hb : s.bills[id]? = some b)
    (op : Op) :
    ∃ b1, (s.apply op).bills[id]? = some b1 ∧ ∀ a ∈ b.paidBy, a ∈ b1.paidBy := by
  cases op with
  | create c d ps t =>
    simp only [Ledger.apply]
    split
    · rename_i s1 id1 heq
      obtain ⟨-, -, -, -, hs⟩ := Ledger.createBill_eq_ok heq
      obtain ⟨hlt, -⟩ := List.getElem?_eq_some.mp hb
      refine ⟨b, ?_, fun a ha => ha⟩
      rw [hs, List.getElem?_append_left hlt]
      exact hb
    · exact ⟨b, hb, fun a ha => ha⟩
  | pay id1 p a =>
    simp only [Ledger.apply]
    split
    · rename_i s1 heq
      obtain ⟨b1, hb1, -, -, -, -, hs⟩ := Ledger.payShare_eq_ok heq
      by_cases hid : id1 = id
      · subst hid
        rw [hb] at hb1
        cases hb1
        obtain ⟨hlt, -⟩ := List.getElem?_eq_some.mp hb
        refine ⟨{ b with paidBy := b.paidBy ++ [p], totalPaid := b.totalPaid + a },
          by rw [hs, List.getElem?_set_self hlt], ?_⟩
        intro x hx
        simp [hx]
      · refine ⟨b, ?_, fun a ha => ha⟩
        rw [hs, List.getElem?_set_ne hid]
        exact hb
    · exact ⟨b, hb, fun a ha => ha⟩
  | withdraw id1 c =>
    simp only [Ledger.apply]
    split
    · rename_i s1 amt heq
      obtain ⟨b1, hb1, -, -, -, -, hs⟩ := Ledger.withdrawFunds_eq_ok heq
      by_cases hid : id1 = id
      · subst hid
        rw [hb] at hb1
        cases hb1
        obtain ⟨hlt, -⟩ := List.getElem?_eq_some.mp hb
        exact ⟨{ b with totalPaid := 0, isActive := false },
          by rw [hs, List.getElem?_set_self hlt], fun a ha => ha⟩
      · refine ⟨b, ?_, fun a ha => ha⟩
        rw [hs, List.getElem?_set_ne hid]
        exact hb
    · exact ⟨b, hb, fun a ha => ha⟩

/-- The modelled ledger on the scenario of section 8 of the specification: a
bill of 100 between `A` and `B` has a share of 50; `A` pays 50; `B` is refused
with 49 and accepted with 50, which completes the bill; a stranger is refused;
the creator withdraws 100 and a second withdrawal of hers is refused. -/
theorem Ledger.scenario_of_section_8 :
    (Ledger.empty.createBill "creator" "desc" ["A", "B"] 100).map
        (fun r => (r.2, r.1.getBill 0)) =
      .ok (0, .ok { creator := "creator", description := "desc", totalAmount := 100,
                    amountPerPerson := 50, participants := ["A", "B"], paidBy := [],
                    totalPaid := 0, isActive := true }) ∧
    (Ledger.run Ledger.empty
        [.create "creator" "desc" ["A", "B"] 100, .pay 0 "A" 50]).hasPaid 0 "A" = .ok true ∧
    (Ledger.run Ledger.empty
        [.create "creator" "desc" ["A", "B"] 100, .pay 0 "A" 50]).allPaid 0 = .ok false ∧
    (Ledger.run Ledger.empty
        [.create "creator" "desc" ["A", "B"] 100, .pay 0 "A" 50]).payShare 0 "B" 49 =
      .error .WrongAmount ∧
    (Ledger.run Ledger.empty
        [.create "creator" "desc" ["A", "B"] 100, .pay 0 "A" 50]).payShare 0 "C" 50 =
      .error .NotParticipant ∧
    (Ledger.run Ledger.empty
        [.create "creator" "desc" ["A", "B"] 100, .pay 0 "A" 50, .pay 0 "B" 50]).allPaid 0 =
      .ok true ∧
    (Ledger.run Ledger.empty
        [.create "creator" "desc" ["A", "B"] 100, .pay 0 "A" 50, .pay 0 "B" 50]).log =
      [.Created 0 "creator" "desc" 100 2, .Paid 0 "A" 50, .Paid 0 "B" 50, .Completed 0] ∧
    ((Ledger.run Ledger.empty
        [.create "creator" "desc" ["A", "B"] 100, .pay 0 "A" 50, .pay 0 "B" 50]).withdrawFunds
          0 "creator").map (fun r => r.2) = .ok 100 ∧
    (Ledger.run Ledger.empty
        [.create "creator" "desc" ["A", "B"] 100, .pay 0 "A" 50, .pay 0 "B" 50,
         .withdraw 0 "creator"]).withdrawFunds 0 "creator" = .error .Inactive ∧
    (Ledger.empty.createBill "creator" "desc" ["A", "B", "C"] 100).map
        (fun r => (r.1.getBill 0).map (fun b => b.amountPerPerson)) = .ok (.ok 33) := by
  decide

/-! ### Lemmas about the front end -/

theorem callsOf_append (xs ys : List Effect) : callsOf (xs ++ ys) = callsOf xs ++ callsOf ys := by
  induction xs with
  | nil => rfl
  | cons x xs ih => cases x <;> simp [callsOf, ih]

theorem collectParticipants_foldl (lib : Library) (inputs acc : List String) :
    inputs.foldl
        (fun participants input =>
          if (!(jsTrim input).isEmpty && lib.isAddress (jsTrim input)) = true then
            participants ++ [jsTrim input]
          else participants)
        acc =
      acc ++ (inputs.map jsTrim).filter (fun addr => !addr.isEmpty && lib.isAddress addr) := by
  induction inputs generalizing acc with
  | nil => simp
  | cons x xs ih =>
    simp only [List.foldl_cons, List.map_cons, List.filter_cons]
    rw [ih]
    split <;> simp

theorem collectParticipants_eq (lib : Library) (inputs : List String) :
    collectParticipants lib inputs =
      (inputs.map jsTrim).filter (fun addr => !addr.isEmpty && lib.isAddress addr) := by
  have h := collectParticipants_foldl lib inputs []
  simpa [collectParticipants] using h

/-- The calls `createBill` makes: none, or the single `contract.createBill`. -/
theorem createBill_calls (lib : Library) (wallet : Option Wallet) (form : CreateForm) :
    callsOf (createBill lib wallet form) = [] ∨
      ∃ w wei, wallet = some w ∧ (jsTrim form.description).isEmpty = false ∧
        form.totalAmount.isEmpty = false ∧ (lib.parseFloat form.totalAmount).leZero = false ∧
        collectParticipants lib form.addresses ≠ [] ∧
        lib.parseEther form.totalAmount = .ok wei ∧
        callsOf (createBill lib wallet form) =
          [.createBill (jsTrim form.description) (collectParticipants lib form.addresses) wei] := by
  unfold createBill
  cases wallet with
  | none => left; rfl
  | some w =>
    simp only
    split
    · left; rfl
    · rename_i hd
      split
      · left; rfl
      · rename_i ha
        split
        · left; rfl
        · rename_i hp
          cases hpe : lib.parseEther form.totalAmount with
          | error e => left; simp [callsOf, createFailed]
          | ok wei =>
            right
            simp only [Bool.or_eq_true, not_or, Bool.not_eq_true] at ha
            refine ⟨w, wei, rfl, by simpa using hd, ha.1, ha.2, ?_, rfl, ?_⟩
            · intro h0
              apply hp
              simp [h0]
            · simp only [List.cons_append, List.nil_append, callsOf]
              congr 1
              cases w.contract.createBill (jsTrim form.description)
                  (collectParticipants lib form.addresses) wei with
              | rejected e => simp [callsOf, createFailed]
              | failed e => simp [callsOf, createFailed]
              | mined events =>
                simp only [callsOf]
                cases events.find? (fun ev => ev.1 == "BillCreated") <;>
                  simp [callsOf, createFailed]

/-- When `createBill` makes no contract call, the last status it shows is an
error. -/
theorem createBill_no_call_status (lib : Library) (wallet : Option Wallet) (form : CreateForm)
    (h : callsOf (createBill lib wallet form) = []) :
    ∃ m, lastStatus (createBill lib wallet form) = some (m, .error) := by
  unfold createBill at h ⊢
  cases wallet with
  | none => exact ⟨_, rfl⟩
  | some w =>
    simp only at h ⊢
    split
    · exact ⟨_, rfl⟩
    · split
      · exact ⟨_, rfl⟩
      · split
        · exact ⟨_, rfl⟩
        · rename_i h1 h2 h3
          rw [if_neg h1, if_neg h2, if_neg h3] at h
          cases hpe : lib.parseEther form.totalAmount with
          | error e => exact ⟨_, rfl⟩
          | ok wei =>
            rw [hpe] at h
            simp [callsOf] at h

theorem JsNumber.positive_of_not_leZero {x : JsNumber} (h1 : x.leZero = false)
    (h2 : x ≠ .nan) : x = .positive := by
  cases x with
  | nan => exact absurd rfl h2
  | negative => cases h1
  | zero => cases h1
  | positive => rfl

theorem payShare_calls (w : Wallet) (billId : Nat) :
    callsOf (payShare (some w) billId) =
      match w.contract.getBill billId with
      | .ok bill => [.getBill billId, .payShare billId (bill.index 3)]
      | .error _ => [.getBill billId] := by
  unfold payShare
  simp only
  cases w.contract.getBill billId with
  | error e => simp [callsOf, payFailed]
  | ok bill =>
    simp only [callsOf]
    cases w.contract.payShare billId (bill.index 3) <;> simp [callsOf, payFailed]

theorem viewsOf_append (xs ys : List Effect) : viewsOf (xs ++ ys) = viewsOf xs ++ viewsOf ys := by
  induction xs with
  | nil => rfl
  | cons x xs ih => cases x <;> simp [viewsOf, ih]

/-- The loop over the participants only makes calls, and the rows it yields are
the rows of the participants, in order, each built from the answer of
`hasPaid` for that participant. -/
theorem detailRows_spec (lib : Library) (w : Wallet) (billId : Nat) (bill : BillView) :
    ∀ ps : List String,
      viewsOf (detailRows lib w billId bill ps).1 = [] ∧
        ∀ rows, (detailRows lib w billId bill ps).2 = some rows →
          List.Forall₂
            (fun p row => ∃ hp, w.contract.hasPaid billId p = .ok hp ∧
              row = detailRow lib w.userAddress billId bill p hp)
            ps rows := by
  intro ps
  induction ps with
  | nil =>
    refine ⟨rfl, ?_⟩
    intro rows h
    simp only [detailRows, Option.some.injEq] at h
    subst h
    exact List.Forall₂.nil
  | cons p ps ih =>
    unfold detailRows
    cases hp : w.contract.hasPaid billId p with
    | error e =>
      refine ⟨rfl, ?_⟩
      intro rows h
      cases h
    | ok b =>
      refine ⟨by simpa [viewsOf] using ih.1, ?_⟩
      intro rows h
      simp only [Option.map_eq_some'] at h
      obtain ⟨rows1, h1, h2⟩ := h
      subst h2
      exact List.Forall₂.cons ⟨b, hp, rfl⟩ (ih.2 rows1 h1)

/-- When every `hasPaid` read of the loop is answered, the loop yields rows. -/
theorem detailRows_total (lib : Library) (w : Wallet) (billId : Nat) (bill : BillView) :
    ∀ ps : List String, (∀ p ∈ ps, ∃ hp, w.contract.hasPaid billId p = .ok hp) →
      ∃ rows, (detailRows lib w billId bill ps).2 = some rows := by
  intro ps
  induction ps with
  | nil => intro _; exact ⟨[], rfl⟩
  | cons p ps ih =>
    intro h
    obtain ⟨hp, hhp⟩ := h p (by simp)
    obtain ⟨rows, hrows⟩ := ih (fun q hq => h q (by simp [hq]))
    refine ⟨detailRow lib w.userAddress billId bill p hp :: rows, ?_⟩
    unfold detailRows
    rw [hhp]
    simp [hrows]

/-- The views `showBillDetails` displays: at most the view of the bill it read,
with the rows of the loop. -/
theorem showBillDetails_views (lib : Library) (w : Wallet) (billId : Nat) (bill : BillView)
    (hbill : w.contract.getBill billId = .ok bill) (view : DetailsView)
    (hview : view ∈ viewsOf (showBillDetails lib (some w) billId)) :
    ∃ rows, (detailRows lib w billId bill bill.participants).2 = some rows ∧
      view = detailsView lib w.userAddress billId bill rows := by
  have hrows : ∀ v, v ∈ viewsOf (showRows lib w billId bill) →
      ∃ rows, (detailRows lib w billId bill bill.participants).2 = some rows ∧
        v = detailsView lib w.userAddress billId bill rows := by
    intro v hv
    unfold showRows at hv
    simp only [viewsOf_append, (detailRows_spec lib w billId bill bill.participants).1,
      List.nil_append] at hv
    cases hr : (detailRows lib w billId bill bill.participants).2 with
    | none => simp [hr, detailsFailed, viewsOf] at hv
    | some rows =>
      simp only [hr, viewsOf, List.mem_singleton] at hv
      exact ⟨rows, rfl, hv⟩
  have hafter : ∀ v, v ∈ viewsOf (showAfterUserRead lib w billId bill) →
      ∃ rows, (detailRows lib w billId bill bill.participants).2 = some rows ∧
        v = detailsView lib w.userAddress billId bill rows := by
    intro v hv
    unfold showAfterUserRead at hv
    cases ha : w.contract.allPaid billId with
    | error e => simp [ha, detailsFailed, viewsOf] at hv
    | ok b =>
      simp only [ha, viewsOf] at hv
      exact hrows v hv
  unfold showBillDetails at hview
  simp only [hbill, viewsOf] at hview
  split at hview
  · cases hu : w.contract.hasPaid billId w.userAddress with
    | error e => simp [hu, detailsFailed, viewsOf] at hview
    | ok b =>
      simp only [hu, viewsOf] at hview
      exact hafter view hview
  · exact hafter view hview

/-- When every read of `showBillDetails` is answered, it displays a view. -/
theorem showBillDetails_total (lib : Library) (w : Wallet) (billId : Nat) (bill : BillView)
    (hbill : w.contract.getBill billId = .ok bill)
    (huser : ∃ b, w.contract.hasPaid billId w.userAddress = .ok b)
    (hall : ∃ b, w.contract.allPaid billId = .ok b)
    (hrows : ∀ p ∈ bill.participants, ∃ hp, w.contract.hasPaid billId p = .ok hp) :
    ∃ view, viewsOf (showBillDetails lib (some w) billId) = [view] := by
  obtain ⟨rows, hr⟩ := detailRows_total lib w billId bill bill.participants hrows
  obtain ⟨b1, hb1⟩ := huser
  obtain ⟨b2, hb2⟩ := hall
  refine ⟨detailsView lib w.userAddress billId bill rows, ?_⟩
  have hafter : viewsOf (showAfterUserRead lib w billId bill) =
      [detailsView lib w.userAddress billId bill rows] := by
    unfold showAfterUserRead showRows
    simp [hb2, viewsOf, viewsOf_append, (detailRows_spec lib w billId bill bill.participants).1,
      hr]
  unfold showBillDetails
  simp only [hbill, viewsOf]
  split
  · simp only [hb1, viewsOf]
    exact hafter
  · exact hafter

/-- The card `loadBills` appends for bill `i` when `hasPaid` answers `paid`
for a participant. -/
theorem loadLoop_spec (lib : Library) (w : Wallet) (bills : Nat → BillView) (paid : Nat → Bool) :
    ∀ ids : List Nat,
      (∀ i ∈ ids, w.contract.getBill i = .ok (bills i)) →
      (∀ i ∈ ids, (bills i).participants.any (fun p => sameAddress lib p w.userAddress) = true →
        w.contract.hasPaid i w.userAddress = .ok (paid i)) →
      getBillIds (loadLoop lib w ids) = ids ∧
        cardsOf (loadLoop lib w ids) =
          (ids.filter (fun i => involved lib w.userAddress (bills i))).map
            (fun i => billCard i (bills i) (sameAddress lib (bills i).creator w.userAddress)
              ((bills i).participants.any (fun p => sameAddress lib p w.userAddress))
              ((bills i).participants.any (fun p => sameAddress lib p w.userAddress)
                && paid i)) := by
  intro ids
  induction ids with
  | nil => intro _ _; exact ⟨rfl, rfl⟩
  | cons i rest ih =>
    intro hb hp
    obtain ⟨ih1, ih2⟩ := ih (fun j hj => hb j (by simp [hj])) (fun j hj => hp j (by simp [hj]))
    have hbi := hb i (by simp)
    have hpi := hp i (by simp)
    unfold loadLoop
    simp only [hbi, getBillIds, cardsOf]
    cases hc : sameAddress lib (bills i).creator w.userAddress <;>
      cases hpart : (bills i).participants.any (fun p => sameAddress lib p w.userAddress)
    · simp [involved, hc, hpart, ih1, ih2]
    · simp [involved, hc, hpart, ih1, ih2, hpi hpart, getBillIds, cardsOf]
    · simp [involved, hc, hpart, ih1, ih2, getBillIds, cardsOf]
    · simp [involved, hc, hpart, ih1, ih2, hpi hpart, getBillIds, cardsOf]

/-! ### The reference library meets the conditions -/

theorem splitAtChar_ne_nil (sep : Char) (l : List Char) : splitAtChar sep l ≠ [] := by
  cases l with
  | nil => simp [splitAtChar]
  | cons c cs =>
    simp only [splitAtChar]
    split
    · simp
    · split <;> simp

theorem splitAtChar_cases (sep : Char) (l : List Char) :
    (sep ∉ l ∧ splitAtChar sep l = [l]) ∨
      ∃ a rest, l = a ++ sep :: rest ∧ sep ∉ a ∧
        splitAtChar sep l = a :: splitAtChar sep rest := by
  induction l with
  | nil => left; simp [splitAtChar]
  | cons c cs ih =>
    by_cases hc : c = sep
    · right
      refine ⟨[], cs, by simp [hc], by simp, ?_⟩
      simp [splitAtChar, hc]
    · rcases ih with ⟨hn, hs⟩ | ⟨a, rest, hl, hn, hs⟩
      · left
        refine ⟨?_, ?_⟩
        · simp only [List.mem_cons, not_or]
          exact ⟨fun h => hc h.symm, hn⟩
        · simp [splitAtChar, hc, hs]
      · right
        refine ⟨c :: a, rest, by simp [hl], ?_, ?_⟩
        · simp only [List.mem_cons, not_or]
          exact ⟨fun h => hc h.symm, hn⟩
        · simp [splitAtChar, hc, hs]

theorem isDecimalDigit_point : isDecimalDigit '.' = false := by decide

/-- A text of digits and points with at most one point is a run of digits,
possibly followed by a point and a second run of digits. -/
theorem decimal_shape {body : List Char}
    (hall : body.all (fun c => isDecimalDigit c || c == '.') = true)
    (hlen : (splitAtChar '.' body).length ≤ 2) :
    ∃ a b : List Char, (∀ c ∈ a, isDecimalDigit c = true) ∧ (∀ c ∈ b, isDecimalDigit c = true) ∧
      ((body = a ∧ b = [] ∧ splitAtChar '.' body = [a]) ∨
        (body = a ++ '.' :: b ∧ splitAtChar '.' body = [a, b])) := by
  have hall1 : ∀ c ∈ body, isDecimalDigit c = true ∨ c = '.' := by
    intro c hc
    have := List.all_eq_true.mp hall c hc
    simpa using this
  have hdig : ∀ l : List Char, (∀ c ∈ l, isDecimalDigit c = true ∨ c = '.') → '.' ∉ l →
      ∀ c ∈ l, isDecimalDigit c = true := by
    intro l hl hn c hc
    rcases hl c hc with h | h
    · exact h
    · exact absurd (h ▸ hc) hn
  rcases splitAtChar_cases '.' body with ⟨hn, hs⟩ | ⟨a, rest, hl, hn, hs⟩
  · exact ⟨body, [], hdig body hall1 hn, by simp, Or.inl ⟨rfl, rfl, hs⟩⟩
  · have hrest : ∀ c ∈ rest, isDecimalDigit c = true ∨ c = '.' := by
      intro c hc
      exact hall1 c (by simp [hl, hc])
    have ha : ∀ c ∈ a, isDecimalDigit c = true ∨ c = '.' := by
      intro c hc
      exact hall1 c (by simp [hl, hc])
    rcases splitAtChar_cases '.' rest with ⟨hn2, hs2⟩ | ⟨a2, rest2, hl2, hn2, hs2⟩
    · refine ⟨a, rest, hdig a ha hn, hdig rest hrest hn2, Or.inr ⟨hl, ?_⟩⟩
      rw [hs, hs2]
    · exfalso
      rw [hs, hs2] at hlen
      have := splitAtChar_ne_nil '.' rest2
      cases hsp : splitAtChar '.' rest2 with
      | nil => exact this hsp
      | cons x xs =>
        rw [hsp] at hlen
        simp at hlen

theorem digitsValueRev_append (x y : List Char) :
    digitsValueRev (x ++ y) = digitsValueRev x + 10 ^ x.length * digitsValueRev y := by
  induction x with
  | nil => simp [digitsValueRev]
  | cons c cs ih =>
    show digitValue c + 10 * digitsValueRev (cs ++ y) =
      digitValue c + 10 * digitsValueRev cs + 10 ^ (cs.length + 1) * digitsValueRev y
    rw [ih, pow_succ]
    ring

theorem digitsValue_append (a b : List Char) :
    digitsValue (a ++ b) = digitsValue b + 10 ^ b.length * digitsValue a := by
  simp [digitsValue, digitsValueRev_append]

theorem digitsValueRev_dropWhile_zero (l : List Char) :
    digitsValueRev (l.dropWhile (fun c => c == '0')) = 0 → digitsValueRev l = 0 := by
  induction l with
  | nil => simp
  | cons c cs ih =>
    by_cases hc : c = '0'
    · subst hc
      simp only [List.dropWhile_cons, beq_self_eq_true, ↓reduceIte]
      intro h
      simp [digitsValueRev, ih h, digitValue]
    · simp [List.dropWhile_cons, hc]

theorem digitsValue_trimTrailingZeros (b : List Char) (h : digitsValue b ≠ 0) :
    digitsValue (trimTrailingZeros b) ≠ 0 := by
  intro h0
  apply h
  simp only [digitsValue, trimTrailingZeros, List.reverse_reverse] at h0 ⊢
  exact digitsValueRev_dropWhile_zero _ h0

theorem digitsValue_pad (b : List Char) (k : Nat) (h : digitsValue b ≠ 0) :
    digitsValue (b ++ List.replicate k '0') ≠ 0 := by
  rw [digitsValue_append]
  intro h0
  have h1 : 10 ^ (List.replicate k '0').length * digitsValue b = 0 := by omega
  rcases Nat.mul_eq_zero.mp h1 with h2 | h2
  · exact absurd h2 (by positivity)
  · exact h h2

theorem digitsValue_nil : digitsValue [] = 0 := rfl

theorem parseFixedBody_ok {neg : Bool} {body : List Char} {w : Int}
    (h : parseFixedBody neg body = .ok w) :
    ∃ a b : List Char, (∀ c ∈ a, isDecimalDigit c = true) ∧ (∀ c ∈ b, isDecimalDigit c = true) ∧
      (a ≠ [] ∨ b ≠ []) ∧ ((body = a ∧ b = []) ∨ body = a ++ '.' :: b) ∧
      (neg = false → digitsValue (a ++ b) ≠ 0 → 0 < w) := by
  unfold parseFixedBody at h
  split at h
  · cases h
  rename_i h1
  split at h
  · cases h
  rename_i h2
  dsimp only at h
  split at h
  · cases h
  rename_i h3
  split at h
  · cases h
  rename_i h4
  simp only [Bool.or_eq_true, List.isEmpty_iff, Bool.not_eq_true', not_or, Bool.not_eq_false] at h1
  obtain ⟨hne, hall⟩ := h1
  obtain ⟨a, b, ha, hb, hshape⟩ := decimal_shape hall (by omega)
  have hpos : ∀ (whole fraction : List Char),
      (digitsValue a ≠ 0 → orZero whole = a) →
      (digitsValue b ≠ 0 → orZero fraction = b) →
      digitsValue (a ++ b) ≠ 0 →
      (0 : Int) < (digitsValue (orZero whole) : Int) * 10 ^ 18 +
        (digitsValue
          (orZero (trimTrailingZeros (orZero fraction)) ++
            List.replicate
              (18 - (orZero (trimTrailingZeros (orZero fraction))).length) '0') : Int) := by
    intro whole fraction hw hf hv
    show (0 : Int) < (digitsValue (orZero whole) : Int) * 10 ^ 18 + _
    rw [digitsValue_append] at hv
    by_cases hbz : digitsValue b = 0
    · have haz : digitsValue a ≠ 0 := by
        intro haz
        apply hv
        simp [hbz, haz]
      rw [hw haz]
      have : 0 < digitsValue a := Nat.pos_of_ne_zero haz
      positivity
    · rw [hf hbz]
      have ht := digitsValue_trimTrailingZeros b hbz
      have hne : orZero (trimTrailingZeros b) = trimTrailingZeros b := by
        cases htb : trimTrailingZeros b with
        | nil => rw [htb] at ht; exact absurd digitsValue_nil ht
        | cons x xs => rfl
      rw [hne]
      have hp := digitsValue_pad (trimTrailingZeros b) (18 - (trimTrailingZeros b).length) ht
      have : 0 < digitsValue (trimTrailingZeros b ++
          List.replicate (18 - (trimTrailingZeros b).length) '0') := Nat.pos_of_ne_zero hp
      positivity
  refine ⟨a, b, ha, hb, ?_, ?_, ?_⟩
  · rcases hshape with ⟨hba, hbn, -⟩ | ⟨hba, -⟩
    · left
      rw [← hba]
      exact hne
    · by_contra hcon
      simp only [not_or, not_not] at hcon
      rw [hcon.1, hcon.2] at hba
      apply h2
      simp [hba]
  · rcases hshape with ⟨hba, hbn, -⟩ | ⟨hba, -⟩
    · exact Or.inl ⟨hba, hbn⟩
    · exact Or.inr hba
  · intro hneg hv
    subst hneg
    simp only [Bool.false_eq_true, ↓reduceIte, Except.ok.injEq] at h
    rw [← h]
    apply hpos _ _ _ _ hv
    · intro haz
      have hane : a ≠ [] := by
        intro h0
        rw [h0] at haz
        exact haz digitsValue_nil
      rcases hshape with ⟨-, -, hs⟩ | ⟨-, hs⟩ <;> rw [hs] <;>
        cases a with
        | nil => exact absurd rfl hane
        | cons x xs => simp [orZero]
    · intro hbz
      have hbne : b ≠ [] := by
        intro h0
        rw [h0] at hbz
        exact hbz digitsValue_nil
      rcases hshape with ⟨-, hbn, -⟩ | ⟨-, hs⟩
      · exact absurd hbn hbne
      · rw [hs]
        cases b with
        | nil => exact absurd rfl hbne
        | cons x xs => simp [orZero]

theorem takeWhile_digits (a : List Char) (h : ∀ c ∈ a, isDecimalDigit c = true) :
    a.takeWhile isDecimalDigit = a ∧ a.dropWhile isDecimalDigit = [] := by
  have h1 := @List.takeWhile_append_of_pos _ isDecimalDigit a [] h
  have h2 := @List.dropWhile_append_of_pos _ isDecimalDigit a [] h
  simp only [List.append_nil, List.takeWhile_nil, List.dropWhile_nil] at h1 h2
  exact ⟨h1, h2⟩

theorem not_infinity_of_digit_or_point {c : Char} (hc : isDecimalDigit c = true ∨ c = '.')
    (rest : List Char) : "Infinity".data.isPrefixOf (c :: rest) = false := by
  have hI : c ≠ 'I' := by
    rintro rfl
    rcases hc with h | h
    · revert h; decide
    · revert h; decide
  have hd : "Infinity".data = 'I' :: "nfinity".data := by decide
  rw [hd, List.isPrefixOf]
  simp [Ne.symm hI]

theorem unsignedLiteral_shape {neg : Bool} {u a b : List Char}
    (ha : ∀ c ∈ a, isDecimalDigit c = true) (hb : ∀ c ∈ b, isDecimalDigit c = true)
    (hne : a ≠ [] ∨ b ≠ []) (hu : (u = a ∧ b = []) ∨ u = a ++ '.' :: b) :
    unsignedLiteral neg u ≠ .nan ∧
      (unsignedLiteral neg u = .positive → neg = false ∧ digitsValue (a ++ b) ≠ 0) := by
  have hinf : "Infinity".data.isPrefixOf u = false := by
    rcases hu with ⟨hua, hbn⟩ | hua
    · subst hua
      cases u with
      | nil => simp [hbn] at hne
      | cons c rest => exact not_infinity_of_digit_or_point (Or.inl (ha c (by simp))) rest
    · cases a with
      | nil => rw [hua]; exact not_infinity_of_digit_or_point (Or.inr rfl) b
      | cons c rest =>
        rw [hua]
        exact not_infinity_of_digit_or_point (Or.inl (ha c (by simp))) _
  have hparts : u.takeWhile isDecimalDigit = a ∧
      (if (u.dropWhile isDecimalDigit).head? == some '.' then
        ((u.dropWhile isDecimalDigit).drop 1).takeWhile isDecimalDigit else []) = b := by
    rcases hu with ⟨hua, hbn⟩ | hua
    · subst hua
      rw [(takeWhile_digits u ha).1, (takeWhile_digits u ha).2, hbn]
      simp
    · rw [hua, List.takeWhile_append_of_pos ha, List.dropWhile_append_of_pos ha]
      simp [isDecimalDigit_point, (takeWhile_digits b hb).1]
  have hempty : (a.isEmpty && b.isEmpty) = false := by
    rcases hne with h | h
    · cases a with
      | nil => exact absurd rfl h
      | cons x xs => rfl
    · cases b with
      | nil => exact absurd rfl h
      | cons x xs => simp
  unfold unsignedLiteral
  rw [hinf]
  simp only [Bool.false_eq_true, ↓reduceIte]
  rw [hparts.1, hparts.2, hempty]
  simp only [Bool.false_eq_true, ↓reduceIte]
  generalize exponentPart _ = e
  by_cases hz : (digitsValue (a ++ b) == 0 ||
      roundsToZero (digitsValue (a ++ b)) (e - (b.length : Int))) = true
  · rw [if_pos hz]
    simp
  · rw [if_neg hz]
    have hm : digitsValue (a ++ b) ≠ 0 := by
      intro h0
      apply hz
      simp [h0]
    cases neg
    · simp [hm]
    · simp

theorem isJsWhiteSpace_of_digit_or_point {c : Char}
    (hc : isDecimalDigit c = true ∨ c = '.' ∨ c = '-') : isJsWhiteSpace c = false := by
  rcases hc with h | h | h
  · simp only [isDecimalDigit, Bool.and_eq_true, decide_eq_true_eq] at h
    simp only [isJsWhiteSpace, Bool.or_eq_false_iff, beq_eq_false_iff_ne, ne_eq,
      Bool.and_eq_false_imp, decide_eq_true_eq, decide_eq_false_iff_not]
    omega
  · subst h; decide
  · subst h; decide

/-- The reference `parseEther` accepts only decimal literals, on which the
reference `parseFloat` reads a number of the same sign. -/
theorem referenceLibrary_amountsAgree : referenceLibrary.AmountsAgree := by
  have key : ∀ (s : String) (wei : Int), parseEtherRef s = .ok wei →
      parseFloatRef s ≠ .nan ∧ (parseFloatRef s = .positive → 0 < wei) := by
    intro s wei h
    unfold parseEtherRef at h
    dsimp only at h
    obtain ⟨a, b, ha, hb, hne, hshape, hpos⟩ := parseFixedBody_ok h
    unfold parseFloatRef
    dsimp only
    cases hv : s.data with
    | nil =>
      rw [hv] at hshape
      simp only [List.head?_nil, List.drop_nil, ite_self] at hshape
      exfalso
      rcases hshape with ⟨h1, h2⟩ | h1
      · rcases hne with h3 | h3
        · exact h3 h1.symm
        · exact h3 h2
      · simp at h1
    | cons c rest =>
      rw [hv] at hshape hpos
      by_cases hc : c = '-'
      · subst hc
        simp only [List.head?_cons, beq_self_eq_true, ↓reduceIte, List.drop_succ_cons,
          List.drop_zero] at hshape
        have hws : isJsWhiteSpace '-' = false := by decide
        simp only [List.dropWhile_cons, hws, Bool.false_eq_true, ↓reduceIte, List.head?_cons,
          beq_self_eq_true, Bool.true_or, List.drop_succ_cons, List.drop_zero]
        have hu := @unsignedLiteral_shape true _ _ _ ha hb hne hshape
        refine ⟨hu.1, ?_⟩
        intro hp
        have := (hu.2 hp).1
        cases this
      · have hneg : (some c == some '-') = false := by simpa using hc
        simp only [List.head?_cons, hneg, Bool.false_eq_true, ↓reduceIte] at hshape hpos
        have hcd : isDecimalDigit c = true ∨ c = '.' := by
          rcases hshape with ⟨h1, -⟩ | h1
          · exact Or.inl (ha c (by rw [← h1]; simp))
          · cases a with
            | nil =>
              simp only [List.nil_append, List.cons.injEq] at h1
              exact Or.inr h1.1
            | cons x xs =>
              simp only [List.cons_append, List.cons.injEq] at h1
              exact Or.inl (ha c (by rw [h1.1]; simp))
        have hws : isJsWhiteSpace c = false :=
          isJsWhiteSpace_of_digit_or_point (hcd.elim Or.inl (fun h => Or.inr (Or.inl h)))
        have hplus : (some c == some '+') = false := by
          rcases hcd with h1 | h1
          · have : c ≠ '+' := by
              rintro rfl
              revert h1
              decide
            simpa using this
          · subst h1
            decide
        simp only [List.dropWhile_cons, hws, Bool.false_eq_true, ↓reduceIte, List.head?_cons,
          hneg, hplus, Bool.or_self]
        have hu := @unsignedLiteral_shape false _ _ _ ha hb hne hshape
        refine ⟨hu.1, ?_⟩
        intro hp
        exact hpos trivial (hu.2 hp).2
  exact ⟨fun s wei h => (key s wei h).1, fun s wei h => (key s wei h).2⟩

/-- The reference library on a few inputs: `parseFloat` reads the longest
decimal literal after leading white space and yields `NaN` without one;
`parseEther` accepts plain decimals only. -/
theorem referenceLibrary_examples :
    parseFloatRef "abc" = .nan ∧ parseFloatRef "" = .nan ∧ parseFloatRef "." = .nan ∧
      parseFloatRef "1" = .positive ∧ parseFloatRef " 2abc" = .positive ∧
      parseFloatRef "1e5" = .positive ∧ parseFloatRef "0" = .zero ∧
      parseFloatRef "-0" = .zero ∧ parseFloatRef "-3" = .negative ∧
      parseFloatRef "Infinity" = .positive ∧
      parseEtherRef "1" = .ok 1000000000000000000 ∧
      parseEtherRef "1.5" = .ok 1500000000000000000 ∧
      parseEtherRef ".5" = .ok 500000000000000000 ∧
      parseEtherRef "-1" = .ok (-1000000000000000000) ∧
      parseEtherRef "abc" = .error { message := "invalid decimal value" } ∧
      parseEtherRef "1e5" = .error { message := "invalid decimal value" } ∧
      parseEtherRef " 2" = .error { message := "invalid decimal value" } ∧
      parseEtherRef "." = .error { message := "missing value" } ∧
      parseEtherRef "1.2.3" = .error { message := "too many decimal points" } ∧
      parseEtherRef "0.0000000000000000001" =
        .error { message := "fractional component exceeds decimals" } := by
  decide

/-! ### Claims about the ledger -/

/-- C1, as stated, fails: after `earlyWithdrawal` bill 0 has `totalPaid = 0`
while `amountPerPerson * |paidBy| = 50 * 1`, so the equation does not hold in
every reachable state. -/
theorem totalPaid_equation_fails_after_withdrawal :
    (Ledger.run Ledger.empty earlyWithdrawal).bills =
        [{ creator := "carol", description := "dinner", totalAmount := 100,
           amountPerPerson := 50, participants := ["alice", "bob"], paidBy := ["alice"],
           totalPaid := 0, isActive := false }] ∧
      ¬ (∀ s : Ledger, s.Reachable → ∀ b ∈ s.bills,
          b.totalPaid = b.amountPerPerson * b.paidBy.length) := by
  refine ⟨by decide, ?_⟩
  intro h
  have h1 := h (Ledger.run Ledger.empty earlyWithdrawal) ⟨earlyWithdrawal, rfl⟩
    { creator := "carol", description := "dinner", totalAmount := 100,
      amountPerPerson := 50, participants := ["alice", "bob"], paidBy := ["alice"],
      totalPaid := 0, isActive := false } (by decide)
  revert h1
  decide

/-- C1, amended: in every state reachable by `createBill`, `payShare` and
`withdrawFunds`, every bill has no identity twice in `paidBy`; while the bill is
active `totalPaid` equals `amountPerPerson` times the number of identities in
`paidBy`; no operation removes an identity from `paidBy`, and a successful
`withdrawFunds` releases `totalPaid`, sets it to 0, closes the bill and keeps
`paidBy` as it is; so once a bill has been withdrawn `totalPaid` is 0 while
`amountPerPerson` times the number of identities in `paidBy` is above 0. -/
theorem totalPaid_equation_while_active (s : Ledger) (hs : s.Reachable) (id : Nat) (b : Bill)
    (hb : s.bills[id]? = some b) :
    b.paidBy.Nodup ∧
      (b.isActive = true → b.totalPaid = b.amountPerPerson * b.paidBy.length) ∧
      (b.isActive = false →
        b.totalPaid = 0 ∧ 0 < b.amountPerPerson * b.paidBy.length) ∧
      (∀ op : Op, ∃ b1, (s.apply op).bills[id]? = some b1 ∧ ∀ a ∈ b.paidBy, a ∈ b1.paidBy) ∧
      (∀ (caller : Address) (s1 : Ledger) (amount : Nat),
        s.withdrawFunds id caller = .ok (s1, amount) →
        amount = b.totalPaid ∧
          s1.bills[id]? = some { b with totalPaid := 0, isActive := false }) := by
  have h := Ledger.reachable_ok hs b (List.getElem?_mem hb)
  refine ⟨h.paid_nodup, h.active_total, fun hc => ⟨h.closed_total hc, h.closed_paid hc⟩,
    fun op => Ledger.apply_paidBy hb op, ?_⟩
  intro caller s1 amount hw
  obtain ⟨b1, hb1, -, -, -, hamt, hs1⟩ := Ledger.withdrawFunds_eq_ok hw
  rw [hb] at hb1
  cases hb1
  obtain ⟨hlt, -⟩ := List.getElem?_eq_some.mp hb
  exact ⟨hamt, by rw [hs1, List.getElem?_set_self hlt]⟩

/-- C1, amended, at work: after one payment of 50 the active bill holds
`50 = 50 * 1`, and the withdrawal by `carol` releases 50 and leaves the bill
closed with `totalPaid = 0` and `alice` still in `paidBy`. -/
theorem totalPaid_equation_while_active_witness :
    (50 : Nat) = 50 * ["alice"].length ∧
      (50 : Nat) = 50 ∧
      (Ledger.run Ledger.empty earlyWithdrawal).bills[0]? =
        some { creator := "carol", description := "dinner", totalAmount := 100,
               amountPerPerson := 50, participants := ["alice", "bob"], paidBy := ["alice"],
               totalPaid := 0, isActive := false } :=
  have h := totalPaid_equation_while_active (Ledger.run Ledger.empty onePayment)
    ⟨onePayment, rfl⟩ 0
    { creator := "carol", description := "dinner", totalAmount := 100, amountPerPerson := 50,
      participants := ["alice", "bob"], paidBy := ["alice"], totalPaid := 50,
      isActive := true } (by decide)
  ⟨h.2.1 rfl, h.2.2.2.2 "carol" (Ledger.run Ledger.empty earlyWithdrawal) 50 (by decide)⟩

/-- C2: in every reachable state, for every bill, every participant who has
already paid it and every amount, a second `payShare` by that participant fails
with `AlreadyPaid`, also after the bill has been withdrawn, and leaves the
ledger unchanged. -/
theorem second_payShare_rejected (s : Ledger) (hs : s.Reachable) (id : Nat) (b : Bill)
    (hb : s.bills[id]? = some b) (p : Address) (hp : p ∈ b.paidBy) (amount : Nat) :
    s.payShare id p amount = .error LedgerError.AlreadyPaid ∧
      s.apply (.pay id p amount) = s := by
  have hok := Ledger.reachable_ok hs b (List.getElem?_mem hb)
  have h := Ledger.payShare_of_paid hb (hok.paid_sub p hp) hp amount
  refine ⟨h, ?_⟩
  simp only [Ledger.apply, h]

/-- C2 at work: on the withdrawn, inactive bill 0 a second payment by `alice`,
of an amount other than her share, is rejected with `AlreadyPaid` and changes
nothing. -/
theorem second_payShare_rejected_witness :
    (Ledger.run Ledger.empty earlyWithdrawal).payShare 0 "alice" 7 =
        .error LedgerError.AlreadyPaid ∧
      (Ledger.run Ledger.empty earlyWithdrawal).apply (.pay 0 "alice" 7) =
        Ledger.run Ledger.empty earlyWithdrawal :=
  second_payShare_rejected (Ledger.run Ledger.empty earlyWithdrawal) ⟨earlyWithdrawal, rfl⟩ 0
    { creator := "carol", description := "dinner", totalAmount := 100, amountPerPerson := 50,
      participants := ["alice", "bob"], paidBy := ["alice"], totalPaid := 0,
      isActive := false } (by decide) "alice" (by decide) 7

/-- C3: after one successful `withdrawFunds` (which only the creator can
make), every later `withdrawFunds` on the same bill, after any further
operations and by any caller, fails with `Inactive`, releases no funds and
changes no state; so `withdrawFunds` succeeds at most once per bill. -/
theorem withdrawFunds_at_most_once (s s1 : Ledger) (id : Nat) (caller1 : Address)
    (amount : Nat) (h : s.withdrawFunds id caller1 = .ok (s1, amount))
    (ops : List Op) (caller : Address) :
    (∃ b, s.bills[id]? = some b ∧ caller1 = b.creator) ∧
      (s1.run ops).withdrawFunds id caller = .error LedgerError.Inactive ∧
      (s1.run ops).released (.withdraw id caller) = 0 ∧
      (s1.run ops).apply (.withdraw id caller) = s1.run ops := by
  obtain ⟨b, hb, hc, -, -, -, hs⟩ := Ledger.withdrawFunds_eq_ok h
  obtain ⟨hlt, -⟩ := List.getElem?_eq_some.mp hb
  have hb1 : s1.bills[id]? = some { b with totalPaid := 0, isActive := false } := by
    rw [hs, List.getElem?_set_self hlt]
  have hb2 := Ledger.run_closed ops hb1 rfl
  have hw := Ledger.withdrawFunds_of_closed hb2 rfl caller
  refine ⟨⟨b, hb, hc⟩, hw, ?_, ?_⟩
  · simp only [Ledger.released, hw]
  · simp only [Ledger.apply, hw]

/-- C3 at work: after the withdrawal by `carol` and a further payment attempt by
`bob`, a second withdrawal fails with `Inactive`, for `carol` and for a
stranger alike, releases nothing and changes nothing. -/
theorem withdrawFunds_at_most_once_witness :
    (((Ledger.run Ledger.empty earlyWithdrawal).run [.pay 0 "bob" 50]).withdrawFunds 0 "carol" =
        .error LedgerError.Inactive ∧
      ((Ledger.run Ledger.empty earlyWithdrawal).run [.pay 0 "bob" 50]).released
        (.withdraw 0 "carol") = 0 ∧
      ((Ledger.run Ledger.empty earlyWithdrawal).run [.pay 0 "bob" 50]).apply
        (.withdraw 0 "carol") =
          (Ledger.run Ledger.empty earlyWithdrawal).run [.pay 0 "bob" 50]) ∧
      ((Ledger.run Ledger.empty earlyWithdrawal).run [.pay 0 "bob" 50]).withdrawFunds 0
        "mallory" = .error LedgerError.Inactive :=
  ⟨(withdrawFunds_at_most_once (Ledger.run Ledger.empty onePayment)
      (Ledger.run Ledger.empty earlyWithdrawal) 0 "carol" 50 (by decide) [.pay 0 "bob" 50]
      "carol").2,
    (withdrawFunds_at_most_once (Ledger.run Ledger.empty onePayment)
      (Ledger.run Ledger.empty earlyWithdrawal) 0 "carol" 50 (by decide) [.pay 0 "bob" 50]
      "mallory").2.1⟩

/-! ### Claims about the interface -/

/-- C4, as stated, fails: no event declaration of `CONTRACT_ABI` has the fields
of the `Withdrawn` notification, so not every one of the four notifications of
the specification is declared. -/
theorem abi_has_no_withdrawal_event :
    (∀ d ∈ abiEvents,
        d.declares { name := "Withdrawn", fields := ["id", "creator", "amount"] } = false) ∧
      ¬ (∀ n ∈ specNotifications, ∃ d ∈ abiEvents, d.declares n = true) := by
  decide

/-- C4, amended: `CONTRACT_ABI` declares exactly three events, each with the
stated fields in the stated order: `BillCreated(billId, creator, description,
totalAmount, participantCount)`, `PaymentMade(billId, payer, amount)` and
`BillCompleted(billId)`; they match the notifications `Created`, `Paid` and
`Completed` of the specification, and no declaration matches `Withdrawn`. -/
theorem abi_declares_three_events :
    abiEvents.map (fun d => (d.name, d.inputs.map (fun p => p.name))) =
        [ ("BillCreated", ["billId", "creator", "description", "totalAmount", "participantCount"])
        , ("PaymentMade", ["billId", "payer", "amount"])
        , ("BillCompleted", ["billId"]) ] ∧
      specNotifications.map (fun n => (n.name, (abiEvents.filter (fun d => d.declares n)).map
          (fun d => d.name))) =
        [ ("Created", ["BillCreated"]), ("Paid", ["PaymentMade"])
        , ("Completed", ["BillCompleted"]), ("Withdrawn", []) ] := by
  decide

/-! ### Claims about `payShare` and `createBill` of the front end -/

/-- C5: `getBill` is declared with seven results of which `amountPerPerson` is
at position 3; when `getBill(billId)` answers, the front end's `payShare(billId)`
makes exactly the calls `getBill(billId)` and `payShare(billId)` with the value
`bill[3]`, the `amountPerPerson` of the answer; when `getBill` fails, no payment
is submitted, and without a connected contract nothing is done at all; and when
the contract is the ledger, unchanged between the read and the payment, the
submitted payment is not rejected with `WrongAmount`. -/
theorem payShare_sends_amountPerPerson (w : Wallet) (billId : Nat) :
    (abiFunction "getBill").map (fun d => d.outputs.map (fun p => p.name)) =
        some ["creator", "description", "totalAmount", "amountPerPerson", "participants",
          "totalPaid", "isActive"] ∧
      (∀ bill, w.contract.getBill billId = .ok bill →
        bill.index 3 = .uint bill.amountPerPerson ∧
          callsOf (payShare (some w) billId) =
            [.getBill billId, .payShare billId (.uint bill.amountPerPerson)]) ∧
      (∀ e, w.contract.getBill billId = .error e →
        callsOf (payShare (some w) billId) = [.getBill billId]) ∧
      payShare none billId = [] ∧
      (∀ (s : Ledger) (user : Address), w = { contract := s.contract user, userAddress := user } →
        ∀ v, Call.payShare billId v ∈ callsOf (payShare (some w) billId) →
          ∃ amount, v = .uint amount ∧
            s.payShare billId user amount ≠ .error LedgerError.WrongAmount) := by
  refine ⟨by decide, ?_, ?_, rfl, ?_⟩
  · intro bill hb
    refine ⟨rfl, ?_⟩
    rw [payShare_calls, hb]
    rfl
  · intro e he
    rw [payShare_calls, he]
  · intro s user hw v hv
    subst hw
    rw [payShare_calls] at hv
    simp only [Ledger.contract, Ledger.getBill] at hv
    cases hb : s.bills[billId]? with
    | none => simp [hb, Except.map, Except.mapError] at hv
    | some b =>
      simp only [hb, Except.map, Except.mapError, List.mem_cons, Call.payShare.injEq, true_and,
        List.mem_singleton, reduceCtorEq, false_or, List.not_mem_nil, or_false] at hv
      refine ⟨b.amountPerPerson, hv, ?_⟩
      unfold Ledger.payShare
      rw [hb]
      simp only
      split
      · simp
      · split
        · simp
        · split
          · simp
          · simp

/-- C5 at work: for `addrB`, who has not yet paid bill 0 of `sampleLedger`, the
front end reads the bill and submits the share of 50. -/
theorem payShare_sends_amountPerPerson_witness :
    callsOf (payShare (some (sampleWallet addrB)) 0) = [.getBill 0, .payShare 0 (.uint 50)] :=
  ((payShare_sends_amountPerPerson (sampleWallet addrB) 0).2.1 sampleBill (by decide)).2

/-- C6: `createBill` makes at most one contract call, and a call it makes is
`contract.createBill` with the trimmed description and the collected
participants, made only when a contract is connected, the trimmed description is
non-empty, the entered amount parses to a number above 0 and the collected list
is non-empty; the amount it sends is then above 0.  In every other case it makes
no contract call, and whenever it makes none the status it leaves is an
error. -/
theorem createBill_submits_only_valid_forms (lib : Library) (hlib : lib.AmountsAgree)
    (wallet : Option Wallet) (form : CreateForm) :
    (callsOf (createBill lib wallet form)).length ≤ 1 ∧
      (∀ c ∈ callsOf (createBill lib wallet form),
        ∃ wei, c = .createBill (jsTrim form.description)
              (collectParticipants lib form.addresses) wei ∧
          wallet.isSome = true ∧ jsTrim form.description ≠ "" ∧
          lib.parseFloat form.totalAmount = .positive ∧
          collectParticipants lib form.addresses ≠ [] ∧ 0 < wei) ∧
      (¬ (wallet.isSome = true ∧ jsTrim form.description ≠ "" ∧
            lib.parseFloat form.totalAmount = .positive ∧
            collectParticipants lib form.addresses ≠ []) →
        callsOf (createBill lib wallet form) = []) ∧
      (callsOf (createBill lib wallet form) = [] →
        ∃ m, lastStatus (createBill lib wallet form) = some (m, .error)) := by
  have hcall : ∀ c ∈ callsOf (createBill lib wallet form),
      ∃ wei, c = .createBill (jsTrim form.description)
            (collectParticipants lib form.addresses) wei ∧
        wallet.isSome = true ∧ jsTrim form.description ≠ "" ∧
        lib.parseFloat form.totalAmount = .positive ∧
        collectParticipants lib form.addresses ≠ [] ∧ 0 < wei := by
    intro c hc
    rcases createBill_calls lib wallet form with h0 | ⟨w, wei, hw, hd, -, hf, hp, hpe, hcalls⟩
    · rw [h0] at hc
      cases hc
    · rw [hcalls, List.mem_singleton] at hc
      have hpos := JsNumber.positive_of_not_leZero hf (hlib.number_of_parsed _ _ hpe)
      refine ⟨wei, hc, by simp [hw], ?_, hpos, hp, hlib.positive_of_parsed _ _ hpe hpos⟩
      intro h0
      rw [(String.isEmpty_iff _).mpr h0] at hd
      cases hd
  refine ⟨?_, hcall, ?_, createBill_no_call_status lib wallet form⟩
  · rcases createBill_calls lib wallet form with h0 | ⟨w, wei, -, -, -, -, -, -, hcalls⟩
    · simp [h0]
    · simp [hcalls]
  · intro hnot
    cases hcs : callsOf (createBill lib wallet form) with
    | nil => rfl
    | cons c cs =>
      exfalso
      obtain ⟨wei, -, h1, h2, h3, h4, -⟩ := hcall c (by simp [hcs])
      exact hnot ⟨h1, h2, h3, h4⟩

/-- C6 at work: with the reference library a complete form is submitted once,
with one ether in wei, and the same form with the amount `abc` (which passes
the test `parseFloat(totalAmount) <= 0`, being `NaN`) is not submitted. -/
theorem createBill_submits_only_valid_forms_witness :
    referenceLibrary.AmountsAgree ∧
      callsOf (createBill referenceLibrary (some (sampleWallet addrC))
          { description := "dinner", totalAmount := "1", addresses := [addrA, addrB] }) =
        [.createBill "dinner" [addrA, addrB] 1000000000000000000] ∧
      callsOf (createBill referenceLibrary (some (sampleWallet addrC))
          { description := "dinner", totalAmount := "abc", addresses := [addrA, addrB] }) = [] :=
  ⟨referenceLibrary_amountsAgree, by decide,
    (createBill_submits_only_valid_forms referenceLibrary referenceLibrary_amountsAgree
      (some (sampleWallet addrC))
      { description := "dinner", totalAmount := "abc", addresses := [addrA, addrB] }).2.2.1
      (by decide)⟩

/-- C7, as stated, fails: a form in which the same valid address is entered
twice is submitted, with that address twice in the participant list. -/
theorem createBill_submits_repeated_address :
    callsOf (createBill referenceLibrary (some (sampleWallet addrC)) repeatedForm) =
        [.createBill "dinner" [addrA, addrA] 1000000000000000000] ∧
      ¬ (∀ (lib : Library) (wallet : Option Wallet) (form : CreateForm) (d : String)
          (ps : List String) (wei : Int),
          Call.createBill d ps wei ∈ callsOf (createBill lib wallet form) → ps.Nodup) := by
  have h : callsOf (createBill referenceLibrary (some (sampleWallet addrC)) repeatedForm) =
      [.createBill "dinner" [addrA, addrA] 1000000000000000000] := by decide
  refine ⟨h, ?_⟩
  intro hall
  have := hall referenceLibrary (some (sampleWallet addrC)) repeatedForm "dinner" [addrA, addrA]
    1000000000000000000 (by rw [h]; simp)
  revert this
  decide

/-- C7, amended: the participant list that `createBill` submits is exactly the
trimmed, non-empty, valid-address form inputs in their input order, repeats
included: a valid address is submitted as many times as it was entered (the
front end neither removes nor rejects a repeated address). -/
theorem createBill_participants_in_input_order (lib : Library) (wallet : Option Wallet)
    (form : CreateForm) (d : String) (ps : List String) (wei : Int)
    (h : Call.createBill d ps wei ∈ callsOf (createBill lib wallet form)) :
    ps = (form.addresses.map jsTrim).filter (fun addr => !addr.isEmpty && lib.isAddress addr) ∧
      ∀ a, a ≠ "" → lib.isAddress a = true →
        ps.count a = (form.addresses.map jsTrim).count a := by
  have hps : ps =
      (form.addresses.map jsTrim).filter (fun addr => !addr.isEmpty && lib.isAddress addr) := by
    rcases createBill_calls lib wallet form with h0 | ⟨w, wei1, -, -, -, -, -, -, hcalls⟩
    · rw [h0] at h
      cases h
    · rw [hcalls, List.mem_singleton] at h
      simp only [Call.createBill.injEq] at h
      rw [h.2.1, collectParticipants_eq]
  refine ⟨hps, ?_⟩
  intro a ha hv
  rw [hps]
  apply List.count_filter
  have : a.isEmpty = false := by
    cases he : a.isEmpty with
    | false => rfl
    | true => exact absurd ((String.isEmpty_iff a).mp he) ha
  simp [this, hv]

/-- C7, amended, at work on `repeatedForm`: the address entered twice is
submitted twice. -/
theorem createBill_participants_in_input_order_witness :
    [addrA, addrA] = ((repeatedForm.addresses.map jsTrim).filter
        (fun addr => !addr.isEmpty && referenceLibrary.isAddress addr)) ∧
      [addrA, addrA].count addrA = (repeatedForm.addresses.map jsTrim).count addrA :=
  have h := createBill_participants_in_input_order referenceLibrary (some (sampleWallet addrC))
    repeatedForm "dinner" [addrA, addrA] 1000000000000000000 (by decide)
  ⟨h.1, h.2 addrA (by decide) (by decide)⟩

/-! ### Claims about `showBillDetails` -/

/-- C8: when `getBill` has answered with a bill, every view `showBillDetails`
displays carries the withdraw control if and only if the user's address equals
the creator (compared through `toLowerCase`) and `totalPaid` is above 0; the
control withdraws the displayed bill and shows the bill's `totalPaid`; the
control is a function of the creator, the user and `totalPaid` alone, so it is
the same for a bill that differs in `isActive` and for a contract whose
`allPaid` answers differently; and a view is displayed whenever every read is
answered. -/
theorem showBillDetails_withdraw_control (lib : Library) (w : Wallet) (billId : Nat)
    (bill : BillView) (hbill : w.contract.getBill billId = .ok bill) :
    (∀ view ∈ viewsOf (showBillDetails lib (some w) billId),
        (view.withdraw.isSome = true ↔
          sameAddress lib bill.creator w.userAddress = true ∧ 0 < bill.totalPaid) ∧
        (∀ button, view.withdraw = some button →
          button.billId = billId ∧ button.amount = bill.totalPaid)) ∧
      (∀ (w2 : Wallet) (bill2 : BillView), w2.contract.getBill billId = .ok bill2 →
        w2.userAddress = w.userAddress → bill2.creator = bill.creator →
        bill2.totalPaid = bill.totalPaid →
        ∀ view ∈ viewsOf (showBillDetails lib (some w) billId),
        ∀ view2 ∈ viewsOf (showBillDetails lib (some w2) billId),
          view2.withdraw = view.withdraw) ∧
      ((∃ b, w.contract.hasPaid billId w.userAddress = .ok b) →
        (∃ b, w.contract.allPaid billId = .ok b) →
        (∀ p ∈ bill.participants, ∃ hp, w.contract.hasPaid billId p = .ok hp) →
        ∃ view, viewsOf (showBillDetails lib (some w) billId) = [view]) := by
  have hw : ∀ (w1 : Wallet) (b1 : BillView), w1.contract.getBill billId = .ok b1 →
      ∀ view ∈ viewsOf (showBillDetails lib (some w1) billId),
        view.withdraw =
          if (sameAddress lib b1.creator w1.userAddress && decide (b1.totalPaid > 0)) = true then
            some { billId := billId, amount := b1.totalPaid }
          else none := by
    intro w1 b1 h1 view hview
    obtain ⟨rows, -, hv⟩ := showBillDetails_views lib w1 billId b1 h1 view hview
    rw [hv]
    rfl
  refine ⟨?_, ?_, ?_⟩
  · intro view hview
    rw [hw w bill hbill view hview]
    by_cases hc : (sameAddress lib bill.creator w.userAddress && decide (bill.totalPaid > 0)) = true
    · rw [if_pos hc]
      simp only [Bool.and_eq_true, decide_eq_true_eq] at hc
      refine ⟨by simpa using hc, ?_⟩
      intro button hb
      simp only [Option.some.injEq] at hb
      rw [← hb]
      exact ⟨rfl, rfl⟩
    · rw [if_neg hc]
      simp only [Bool.and_eq_true, decide_eq_true_eq] at hc
      refine ⟨by simpa using hc, ?_⟩
      intro button hb
      cases hb
  · intro w2 bill2 h2 hu hcr htp view hview view2 hview2
    rw [hw w bill hbill view hview, hw w2 bill2 h2 view2 hview2, hu, hcr, htp]
  · intro huser hall hrows
    exact showBillDetails_total lib w billId bill hbill huser hall hrows

/-- C8 at work: the creator of the bill of `sampleLedger`, of which 50 has been
collected while one participant has not paid, is shown the button that
withdraws 50. -/
theorem showBillDetails_withdraw_control_witness :
    (sampleView addrC).withdraw = some { billId := 0, amount := 50 } ∧
      ((sampleView addrC).withdraw.isSome = true ↔
        sameAddress referenceLibrary sampleBill.creator (sampleWallet addrC).userAddress = true ∧
          0 < sampleBill.totalPaid) :=
  ⟨by decide,
    ((showBillDetails_withdraw_control referenceLibrary (sampleWallet addrC) 0 sampleBill
      (by decide)).1 (sampleView addrC) (by decide)).1⟩

/-- C9: in every view `showBillDetails` displays, the rows are the rows of the
bill's participants in order; the row of a participant carries the pay control,
for the displayed bill, if and only if `hasPaid` answered false for that
participant, the participant equals the user (compared through `toLowerCase`)
and `isActive` is true; every other row shows `Paid` when `hasPaid` answered
true and `Pending` otherwise.  Hence, when the contract is the ledger and
addresses that agree up to case are equal, a `payShare` by the user to whom the
control is offered fails neither with `NotFound`, `Inactive`, `NotParticipant`
nor `AlreadyPaid`. -/
theorem showBillDetails_pay_control (lib : Library) (w : Wallet) (billId : Nat)
    (bill : BillView) (hbill : w.contract.getBill billId = .ok bill) (view : DetailsView)
    (hview : view ∈ viewsOf (showBillDetails lib (some w) billId)) :
    view.rows.map (fun row => row.participant) = bill.participants ∧
      (∀ row ∈ view.rows, ∃ hp, w.contract.hasPaid billId row.participant = .ok hp ∧
        (row.control = .payButton billId ↔
          hp = false ∧ sameAddress lib row.participant w.userAddress = true ∧
            bill.isActive = true) ∧
        (∀ id, row.control = .payButton id → id = billId) ∧
        (row.control ≠ .payButton billId →
          row.control = if hp = true then .paid else .pending)) ∧
      (∀ (s : Ledger) (user : Address),
        w = { contract := s.contract user, userAddress := user } →
        (∀ p ∈ bill.participants, sameAddress lib p user = true → p = user) →
        ∀ row ∈ view.rows, row.control = .payButton billId →
        ∀ amount,
          s.payShare billId user amount ≠ .error LedgerError.NotFound ∧
          s.payShare billId user amount ≠ .error LedgerError.Inactive ∧
          s.payShare billId user amount ≠ .error LedgerError.NotParticipant ∧
          s.payShare billId user amount ≠ .error LedgerError.AlreadyPaid) := by
  obtain ⟨rows, hrows, hv⟩ := showBillDetails_views lib w billId bill hbill view hview
  have hf := (detailRows_spec lib w billId bill bill.participants).2 rows hrows
  have hvr : view.rows = rows := by rw [hv]; rfl
  have hmap : ∀ (ps : List String) (rs : List DetailRow),
      List.Forall₂ (fun p row => ∃ hp, w.contract.hasPaid billId p = .ok hp ∧
        row = detailRow lib w.userAddress billId bill p hp) ps rs →
      rs.map (fun row => row.participant) = ps ∧
        ∀ row ∈ rs, row.participant ∈ ps ∧ ∃ hp,
          w.contract.hasPaid billId row.participant = .ok hp ∧
          row = detailRow lib w.userAddress billId bill row.participant hp := by
    intro ps rs h
    induction h with
    | nil => exact ⟨rfl, by simp⟩
    | @cons p r ps1 rs1 hhead _ ih =>
      obtain ⟨hp, h1, h2⟩ := hhead
      refine ⟨?_, ?_⟩
      · simp only [List.map_cons, ih.1, h2]
        rfl
      · intro row hrow
        rcases List.mem_cons.mp hrow with h3 | h3
        · subst h3
          have hpart : row.participant = p := by rw [h2]; rfl
          refine ⟨by rw [hpart]; simp, hp, ?_, ?_⟩
          · rw [hpart]; exact h1
          · rw [hpart]; exact h2
        · obtain ⟨h4, h5⟩ := ih.2 row h3
          exact ⟨List.mem_cons_of_mem _ h4, h5⟩
  obtain ⟨hm1, hm2⟩ := hmap bill.participants rows hf
  have hctl : ∀ row ∈ view.rows, ∃ hp, w.contract.hasPaid billId row.participant = .ok hp ∧
      (row.control = .payButton billId ↔
        hp = false ∧ sameAddress lib row.participant w.userAddress = true ∧
          bill.isActive = true) ∧
      (∀ id, row.control = .payButton id → id = billId) ∧
      (row.control ≠ .payButton billId →
        row.control = if hp = true then .paid else .pending) := by
    intro row hrow
    rw [hvr] at hrow
    obtain ⟨-, hp, h1, h2⟩ := hm2 row hrow
    refine ⟨hp, h1, ?_⟩
    have hc : row.control =
        if hp = true then RowControl.paid
        else if (sameAddress lib row.participant w.userAddress && bill.isActive) = true then
          RowControl.payButton billId
        else RowControl.pending := by
      conv_lhs => rw [h2]
      rfl
    rw [hc]
    cases hp <;> cases hs : sameAddress lib row.participant w.userAddress <;>
      cases ha : bill.isActive <;> simp
  refine ⟨by rw [hvr]; exact hm1, hctl, ?_⟩
  intro s user hw hcanon row hrow hpay amount
  subst hw
  obtain ⟨hp, h1, h2, -, -⟩ := hctl row hrow
  obtain ⟨hpf, hsame, hact⟩ := h2.mp hpay
  have hmem : row.participant ∈ bill.participants := (hm2 row (hvr ▸ hrow)).1
  have hru : row.participant = user := hcanon _ hmem hsame
  simp only [Ledger.contract, Ledger.getBill, Ledger.hasPaid] at hbill h1
  cases hb : s.bills[billId]? with
  | none => simp [hb, Except.map, Except.mapError] at hbill
  | some b =>
    simp only [hb, Except.map, Except.mapError, Except.ok.injEq] at hbill h1
    subst hbill
    subst hpf
    have hnp : user ∉ b.paidBy := by
      rw [← hru]
      simpa using h1
    have hin : user ∈ b.participants := by
      rw [← hru]
      exact hmem
    have hact1 : b.isActive = true := hact
    unfold Ledger.payShare
    rw [hb]
    simp only [hact1, hin, hnp, Bool.not_true, Bool.false_eq_true, ↓reduceIte, decide_True,
      decide_False]
    split <;> simp

/-- C9 at work: for `addrB`, who has not paid, the view of the bill of
`sampleLedger` shows `Paid` in the row of `addrA` and the pay control in the
row of `addrB`. -/
theorem showBillDetails_pay_control_witness :
    (sampleView addrB).rows.map (fun row => (row.participant, row.control)) =
        [(addrA, .paid), (addrB, .payButton 0)] ∧
      (sampleView addrB).rows.map (fun row => row.participant) = sampleBill.participants :=
  ⟨by decide,
    (showBillDetails_pay_control referenceLibrary (sampleWallet addrB) 0 sampleBill (by decide)
      (sampleView addrB) (by decide)).1⟩

/-! ### Claims about `loadBills` -/

/-- C10, as stated, fails: when `billCounter` returns `2 ^ 53`, `toNumber`
throws, and `loadBills` asks for no bill at all although every read would be
answered; and when a `getBill` read is not answered, the loop ends there, so
with two bills counted only identifier 0 is asked for. -/
theorem loadBills_stops_short :
    loadBills referenceLibrary (some { contract := hugeCounter, userAddress := addrB }) =
        [.call .billCounter, .listCleared, .status "Failed to load bills" .error] ∧
      getBillIds (loadBills referenceLibrary
        (some { contract := unreachableNode, userAddress := addrB })) = [0] ∧
      ¬ (∀ (lib : Library) (w : Wallet) (n : Nat), w.contract.billCounter = .ok n →
          getBillIds (loadBills lib (some w)) = List.range n) := by
  have h1 : loadBills referenceLibrary (some { contract := hugeCounter, userAddress := addrB }) =
      [.call .billCounter, .listCleared, .status "Failed to load bills" .error] := by decide
  refine ⟨h1, by decide, ?_⟩
  intro h
  have h2 := h referenceLibrary { contract := hugeCounter, userAddress := addrB } (2 ^ 53) rfl
  rw [h1] at h2
  have h3 := congrArg List.length h2
  rw [List.length_range] at h3
  revert h3
  decide

/-- C10, amended: let `billCounter` return `n` and let every `getBill` and
`hasPaid` read of `loadBills` be answered.  When `n` is below `2 ^ 53`,
`loadBills` asks `getBill` for exactly the identifiers 0, 1, ..., n-1 in
ascending order; when `n` is 0 it asks for none and shows the empty-list
message; it appends a card, in ascending order of identifier, for exactly the
bills whose creator is the user or whose participants contain the user
(addresses compared through `toLowerCase`); and each card is labelled `Active`
when `isActive` is true and `Completed` otherwise.  When `n` is `2 ^ 53` or
more, the conversion to a number throws: `loadBills` asks for no bill and shows
`Failed to load bills`. -/
theorem loadBills_lists_involved_bills (lib : Library) (w : Wallet) (n : Nat)
    (bills : Nat → BillView) (paid : Nat → Bool)
    (hcount : w.contract.billCounter = .ok n)
    (hbill : ∀ i < n, w.contract.getBill i = .ok (bills i))
    (hpaid : ∀ i < n,
      (bills i).participants.any (fun p => sameAddress lib p w.userAddress) = true →
      w.contract.hasPaid i w.userAddress = .ok (paid i)) :
    (n < 2 ^ 53 →
      getBillIds (loadBills lib (some w)) = List.range n ∧
      (n = 0 → loadBills lib (some w) = [.call .billCounter, .listCleared, .listEmptyMessage]) ∧
      (cardsOf (loadBills lib (some w))).map (fun card => card.billId) =
        (List.range n).filter (fun i =>
          sameAddress lib (bills i).creator w.userAddress ||
            (bills i).participants.any (fun p => sameAddress lib p w.userAddress)) ∧
      cardsOf (loadBills lib (some w)) =
        ((List.range n).filter (fun i => involved lib w.userAddress (bills i))).map
          (fun i => billCard i (bills i) (sameAddress lib (bills i).creator w.userAddress)
            ((bills i).participants.any (fun p => sameAddress lib p w.userAddress))
            ((bills i).participants.any (fun p => sameAddress lib p w.userAddress)
              && paid i)) ∧
      (∀ card ∈ cardsOf (loadBills lib (some w)),
        card.badge = (if (bills card.billId).isActive = true then "Active" else "Completed") ∧
          card.description = (bills card.billId).description)) ∧
      (2 ^ 53 ≤ n →
        loadBills lib (some w) =
          [.call .billCounter, .listCleared, .status "Failed to load bills" .error]) := by
  constructor
  · intro hlt
    have hn : toNumber n = some n := by
      unfold toNumber
      rw [if_pos hlt]
    have hloop := loadLoop_spec lib w bills paid (List.range n)
      (fun i hi => hbill i (List.mem_range.mp hi)) (fun i hi => hpaid i (List.mem_range.mp hi))
    by_cases h0 : n = 0
    · subst h0
      have hl : loadBills lib (some w) =
          [.call .billCounter, .listCleared, .listEmptyMessage] := by
        unfold loadBills
        simp [hcount, hn]
      rw [hl]
      refine ⟨rfl, fun _ => rfl, rfl, rfl, ?_⟩
      intro card hcard
      cases hcard
    · have hl : loadBills lib (some w) =
          .call .billCounter :: .listCleared :: loadLoop lib w (List.range n) := by
        unfold loadBills
        simp [hcount, hn, h0]
      rw [hl]
      simp only [getBillIds, cardsOf]
      refine ⟨hloop.1, fun h => absurd h h0, ?_, hloop.2, ?_⟩
      · rw [hloop.2, List.map_map]
        have : ((fun card : BillCard => card.billId) ∘ fun i =>
            billCard i (bills i) (sameAddress lib (bills i).creator w.userAddress)
              ((bills i).participants.any (fun p => sameAddress lib p w.userAddress))
              ((bills i).participants.any (fun p => sameAddress lib p w.userAddress) && paid i))
            = id := by
          funext i
          rfl
        rw [this, List.map_id]
        rfl
      · intro card hcard
        rw [hloop.2, List.mem_map] at hcard
        obtain ⟨i, -, hi⟩ := hcard
        subst hi
        exact ⟨rfl, rfl⟩
  · intro hge
    have hn : toNumber n = none := by
      unfold toNumber
      rw [if_neg (Nat.not_lt.mpr hge)]
    unfold loadBills
    simp [hcount, hn, loadFailed]

/-- C10, amended, at work: for `addrB` the one bill of `sampleLedger` is read
and shown as an active bill. -/
theorem loadBills_lists_involved_bills_witness :
    getBillIds (loadBills referenceLibrary (some (sampleWallet addrB))) = List.range 1 ∧
      (cardsOf (loadBills referenceLibrary (some (sampleWallet addrB)))).map
          (fun card => (card.billId, card.badge)) = [(0, "Active")] :=
  have h := (loadBills_lists_involved_bills referenceLibrary (sampleWallet addrB) 1
    (fun _ => sampleBill) (fun _ => false) (by decide) (by decide) (by decide)).1 (by decide)
  ⟨h.1, by decide⟩

/-! ### Beyond the claims -/

/-- The timer that `createBill` sets after a mined transaction (lines 153-157,
under the comment `Switch to view tab`) does not switch the tab: when it fires
no event handler runs, so `switchTab("view")` throws at `event.target` after
deactivating the tab buttons, and `loadBills()` is not reached: no contract
call is made and no tab content is shown. -/
theorem createBill_timer_throws (lib : Library) (wallet : Option Wallet) :
    runLater lib wallet .switchTabThenLoadBills =
        ([.tabButtonsDeactivated], some noTargetError) ∧
      callsOf (runLater lib wallet .switchTabThenLoadBills).1 = [] := by
  constructor <;> rfl

end Apay
